import Mathlib

/-!
# Card collection API: store, pagination service and controller

A shallow embedding of the card service (`src/models/card.model.js`,
`src/services/card.service.js`, `src/utils/validators.js`,
`src/controllers/card.controller.js`) and the properties proved about it.

Conventions of the embedding

* JavaScript values are the inductive `JsVal`.  Numbers are the integers
  (`Int`): every number the program computes with is an array length, a page
  number, a limit or a card id, and the embedding is exact as long as these
  stay below `2^53`.
* An object is an association list `JsObj` of own enumerable properties, read
  with `JsObj.get` (first match, `undefined` when the key is absent).
* The module-level variables `cards` and `nextId` of the model are the two
  fields of `Store`, threaded explicitly through every operation.
* Each evaluation of `new Date().toISOString()` whose result ends up in a
  result is an explicit `Timestamp` argument, in the order the source
  evaluates them.
* Logging has no effect on results and is left out.
* An operation that can throw returns an `Option`, with `none` for the
  exception: `toJsString`, `toNumber`, `parseIntE`, `trimCall`, `getPropE` and
  the validators whose name ends in `E` or `Of`.
-/

/-! ## JavaScript values -/

/-- JavaScript values as far as the program handles them. -/
inductive JsVal where
  | undefined
  | null
  | bool (b : Bool)
  | num (n : Int)
  | str (s : String)
  | arr (items : List JsVal)
  | obj (fields : List (String × JsVal))

namespace JsVal

mutual
/-- Structural equality of values is decidable. -/
def decEqVal : (a b : JsVal) → Decidable (a = b)
  | .undefined, .undefined => isTrue rfl
  | .null, .null => isTrue rfl
  | .bool a, .bool b =>
    if h : a = b then isTrue (by rw [h]) else isFalse (by intro e; cases e; exact h rfl)
  | .num a, .num b =>
    if h : a = b then isTrue (by rw [h]) else isFalse (by intro e; cases e; exact h rfl)
  | .str a, .str b =>
    if h : a = b then isTrue (by rw [h]) else isFalse (by intro e; cases e; exact h rfl)
  | .arr a, .arr b =>
    match decEqList a b with
    | isTrue h => isTrue (by rw [h])
    | isFalse h => isFalse (by intro e; cases e; exact h rfl)
  | .obj a, .obj b =>
    match decEqFields a b with
    | isTrue h => isTrue (by rw [h])
    | isFalse h => isFalse (by intro e; cases e; exact h rfl)
  | .undefined, .null | .undefined, .bool _ | .undefined, .num _ | .undefined, .str _
  | .undefined, .arr _ | .undefined, .obj _ => isFalse (by intro e; cases e)
  | .null, .undefined | .null, .bool _ | .null, .num _ | .null, .str _
  | .null, .arr _ | .null, .obj _ => isFalse (by intro e; cases e)
  | .bool _, .undefined | .bool _, .null | .bool _, .num _ | .bool _, .str _
  | .bool _, .arr _ | .bool _, .obj _ => isFalse (by intro e; cases e)
  | .num _, .undefined | .num _, .null | .num _, .bool _ | .num _, .str _
  | .num _, .arr _ | .num _, .obj _ => isFalse (by intro e; cases e)
  | .str _, .undefined | .str _, .null | .str _, .bool _ | .str _, .num _
  | .str _, .arr _ | .str _, .obj _ => isFalse (by intro e; cases e)
  | .arr _, .undefined | .arr _, .null | .arr _, .bool _ | .arr _, .num _
  | .arr _, .str _ | .arr _, .obj _ => isFalse (by intro e; cases e)
  | .obj _, .undefined | .obj _, .null | .obj _, .bool _ | .obj _, .num _
  | .obj _, .str _ | .obj _, .arr _ => isFalse (by intro e; cases e)
/-- Structural equality of arrays of values is decidable. -/
def decEqList : (a b : List JsVal) → Decidable (a = b)
  | [], [] => isTrue rfl
  | [], _ :: _ => isFalse (by intro e; cases e)
  | _ :: _, [] => isFalse (by intro e; cases e)
  | x :: xs, y :: ys =>
    match decEqVal x y, decEqList xs ys with
    | isTrue h, isTrue h2 => isTrue (by rw [h, h2])
    | isFalse h, _ => isFalse (by intro e; cases e; exact h rfl)
    | _, isFalse h => isFalse (by intro e; cases e; exact h rfl)
/-- Structural equality of property lists is decidable. -/
def decEqFields : (a b : List (String × JsVal)) → Decidable (a = b)
  | [], [] => isTrue rfl
  | [], _ :: _ => isFalse (by intro e; cases e)
  | _ :: _, [] => isFalse (by intro e; cases e)
  | (k, x) :: xs, (l, y) :: ys =>
    if hk : k = l then
      match decEqVal x y, decEqFields xs ys with
      | isTrue h, isTrue h2 => isTrue (by rw [hk, h, h2])
      | isFalse h, _ => isFalse (by intro e; cases e; exact h rfl)
      | _, isFalse h => isFalse (by intro e; cases e; exact h rfl)
    else isFalse (by intro e; cases e; exact hk rfl)
end

instance : DecidableEq JsVal := decEqVal

/-- The `typeof` operator. -/
def typeof : JsVal → String
  | .undefined => "undefined"
  | .null => "object"
  | .bool _ => "boolean"
  | .num _ => "number"
  | .str _ => "string"
  | .arr _ => "object"
  | .obj _ => "object"

/-- Truthiness (`ToBoolean`): `undefined`, `null`, `false`, `0` and the empty
string are falsy, everything else is truthy. -/
def truthy : JsVal → Bool
  | .undefined => false
  | .null => false
  | .bool b => b
  | .num n => n != 0
  | .str s => s != ""
  | .arr _ => true
  | .obj _ => true

/-- The comparison `v === id` against a number `id`: true exactly when `v` is
the same number. -/
def strictEqNum (v : JsVal) (id : Int) : Bool :=
  match v with
  | .num n => n == id
  | _ => false

end JsVal

/-- An object: its own enumerable properties in insertion order. -/
abbrev JsObj := List (String × JsVal)

namespace JsObj

/-- Property read `o.k`: the value stored under `k`, `undefined` when there is
no such property. -/
def get (o : JsObj) (k : String) : JsVal :=
  match o with
  | [] => .undefined
  | (k', v) :: rest => if k' = k then v else get rest k

/-- The property names of an object. -/
def keys (o : JsObj) : List String := o.map Prod.fst

/-- Property write `o.k = v`: overwrite in place when the property exists,
append it otherwise. -/
def set (o : JsObj) (k : String) (v : JsVal) : JsObj :=
  match o with
  | [] => [(k, v)]
  | (k', v') :: rest => if k' = k then (k, v) :: rest else (k', v') :: set rest k v

/-- Object spread `{ ...a, ...b }`: the properties of `b` are written onto a
copy of `a` one after the other. -/
def spread (a b : JsObj) : JsObj :=
  b.foldl (fun acc kv => acc.set kv.1 kv.2) a

end JsObj

/-- Property read on an arbitrary value, for the names the program reads
(`suit`, `value`, `collection`): only objects carry them.  The program reads
properties of `null` or `undefined` nowhere: every read is behind a guard. -/
def JsVal.getProp (v : JsVal) (k : String) : JsVal :=
  match v with
  | .obj fields => JsObj.get fields k
  | _ => .undefined

/-! ## Strings -/

/-- White space and line terminators as `String.prototype.trim` and `parseInt`
strip them. -/
def isJsWhitespace (c : Char) : Bool :=
  let n := c.toNat
  n == 0x09 || n == 0x0A || n == 0x0B || n == 0x0C || n == 0x0D || n == 0x20 ||
  n == 0xA0 || n == 0x1680 || (0x2000 ≤ n && n ≤ 0x200A) || n == 0x2028 ||
  n == 0x2029 || n == 0x202F || n == 0x205F || n == 0x3000 || n == 0xFEFF

/-- The method `String.prototype.trim`. -/
def jsTrim (s : String) : String :=
  String.mk ((s.data.dropWhile isJsWhitespace).reverse.dropWhile isJsWhitespace).reverse

/-- The result of one evaluation of `new Date().toISOString()`. -/
abbrev Timestamp := String

/-- Order of ISO-8601 timestamps produced by `toISOString`: they have a fixed
width, so the later instant is the lexicographically greater string. -/
def isoLater (a b : Timestamp) : Prop := b.data < a.data

instance (a b : Timestamp) : Decidable (isoLater a b) :=
  inferInstanceAs (Decidable (b.data < a.data))

/-- The comparison "timestamp `a` is strictly later than timestamp `b`" on
property values: both must be timestamps (strings). -/
def JsVal.laterThan (a b : JsVal) : Prop :=
  match a, b with
  | .str x, .str y => isoLater x y
  | _, _ => False

instance (a b : JsVal) : Decidable (JsVal.laterThan a b) := by
  unfold JsVal.laterThan
  split
  · infer_instance
  · infer_instance

/-! ## Model (`src/models/card.model.js`) -/

/-- The two module-level variables of the model. -/
structure Store where
  cards : List JsObj
  nextId : Int

/-- The initial value of `cards` and `nextId`. -/
def seed : Store where
  cards := [
    [("id", .num 171836785992), ("suit", .str "diamonds"), ("value", .str "queen"),
      ("collection", .str "royal")],
    [("id", .num 171836785993), ("suit", .str "hearts"), ("value", .str "king"),
      ("collection", .str "royal")],
    [("id", .num 171836785994), ("suit", .str "clubs"), ("value", .str "ace"),
      ("collection", .str "classic")],
    [("id", .num 171836785995), ("suit", .str "spades"), ("value", .str "jack"),
      ("collection", .str "classic")]]
  nextId := 171836785996

/-- The predicate `card => card.id === id`. -/
def hasId (id : Int) (card : JsObj) : Bool := (card.get "id").strictEqNum id

/-- The method `Array.prototype.findIndex`, with `none` for `-1`. -/
def findIndex (p : JsObj → Bool) : List JsObj → Option Nat
  | [] => none
  | c :: rest => if p c then some 0 else (findIndex p rest).map (· + 1)

namespace CardModel

/-- Source: `CardModel.getAll`. -/
def getAll (s : Store) : List JsObj := s.cards

/-- Source: `CardModel.getById`; `none` is `undefined`. -/
def getById (s : Store) (id : Int) : Option JsObj := s.cards.find? (hasId id)

/-- Source: `CardModel.create`.  The clock is read twice, `createdAt` first. -/
def create (s : Store) (cardData : JsObj) (t1 t2 : Timestamp) : JsObj × Store :=
  let newCard : JsObj :=
    [("id", .num s.nextId), ("suit", cardData.get "suit"), ("value", cardData.get "value"),
      ("collection", cardData.get "collection"), ("createdAt", .str t1), ("updatedAt", .str t2)]
  (newCard, { cards := s.cards ++ [newCard], nextId := s.nextId + 1 })

/-- Source: `CardModel.update`; `none` is `null`. -/
def update (s : Store) (id : Int) (updates : JsObj) (now : Timestamp) : Option JsObj × Store :=
  match findIndex (hasId id) s.cards with
  | none => (none, s)
  | some cardIndex =>
    let card := (JsObj.spread (s.cards.getD cardIndex []) updates).set "updatedAt" (.str now)
    (some card, { s with cards := s.cards.set cardIndex card })

/-- Source: `CardModel.delete`. -/
def delete (s : Store) (id : Int) : Bool × Store :=
  match findIndex (hasId id) s.cards with
  | none => (false, s)
  | some cardIndex => (true, { s with cards := s.cards.eraseIdx cardIndex })

/-- Source: `CardModel.getCount`. -/
def getCount (s : Store) : Nat := s.cards.length

end CardModel

/-! ## Service (`src/services/card.service.js`) -/

/-- A page reference `{ page, limit }`. -/
structure PageLink where
  page : Int
  limit : Int
  deriving DecidableEq, Repr

/-- The envelope `getPaginatedCards` returns. -/
structure PaginatedResult where
  totalCards : Nat
  totalPages : Int
  currentPage : Int
  limit : Int
  count : Nat
  cards : List JsObj
  next : Option PageLink
  previous : Option PageLink

/-- A relative index of `Array.prototype.slice` for an array of length `len`:
negative indices count from the end, and the result is clamped to `[0, len]`. -/
def sliceIndex (len : Nat) (i : Int) : Nat :=
  if i < 0 then (len + i).toNat else min i.toNat len

/-- The method `Array.prototype.slice(start, end)` for integer arguments. -/
def jsSlice (xs : List JsObj) (startIndex endIndex : Int) : List JsObj :=
  let k := sliceIndex xs.length startIndex
  let final := sliceIndex xs.length endIndex
  (xs.drop k).take (final - k)

/-- The expression `Math.ceil(totalCards / limit)` for a positive integer
`limit`, as `-floor(-totalCards / limit)`. -/
def mathCeilDiv (totalCards : Nat) (limit : Int) : Int :=
  -((-(totalCards : Int)) / limit)

/-- The expression `Math.ceil(totalCards / limit) || 1`: a zero quotient is
falsy and replaced by 1. -/
def totalPagesOf (totalCards : Nat) (limit : Int) : Int :=
  if mathCeilDiv totalCards limit = 0 then 1 else mathCeilDiv totalCards limit

namespace CardService

/-- Source: `CardService.getPaginatedCards`, for integer `page` and integer
`limit >= 1` (the only values the controller lets through).  For `limit < 1`
the quotient `totalCards / limit` is negative, infinite or `NaN`; that part of
the number line is outside the embedding and the result is `none`.  No call in
the body throws, so the `catch` branch is never taken. -/
def getPaginatedCards (s : Store) (page limit : Int) : Option PaginatedResult :=
  if limit < 1 then none else
  let allCards := CardModel.getAll s
  let totalCards := allCards.length
  let totalPages := totalPagesOf totalCards limit
  let validPage := max 1 (min page totalPages)
  let startIndex := (validPage - 1) * limit
  let endIndex := startIndex + limit
  let paginatedCards := jsSlice allCards startIndex endIndex
  some {
    totalCards := totalCards
    totalPages := totalPages
    currentPage := validPage
    limit := limit
    count := paginatedCards.length
    cards := paginatedCards
    next := if validPage < totalPages then some ⟨validPage + 1, limit⟩ else none
    previous := if validPage > 1 then some ⟨validPage - 1, limit⟩ else none }

/-- Source: `CardService.getCardById`: it returns what `CardModel.getById`
returns, so `none` is `undefined` (the docstring in the source says `null`;
the controller only tests `!card`). -/
def getCardById (s : Store) (id : Int) : Option JsObj := CardModel.getById s id

/-- Source: `CardService.createCard`. -/
def createCard (s : Store) (cardData : JsObj) (t1 t2 : Timestamp) : JsObj × Store :=
  CardModel.create s cardData t1 t2

/-- Source: `CardService.updateCard`. -/
def updateCard (s : Store) (id : Int) (updates : JsObj) (now : Timestamp) :
    Option JsObj × Store :=
  CardModel.update s id updates now

/-- Source: `CardService.deleteCard`. -/
def deleteCard (s : Store) (id : Int) : Bool × Store := CardModel.delete s id

end CardService

/-! ## Validators (`src/utils/validators.js`) -/

mutual
/-- The abstract operation `ToString`; `none` when it throws a `TypeError`.
An object is converted by `OrdinaryToPrimitive`, which looks up `toString`
and then `valueOf` and calls the first that is callable and returns a
primitive.  No embedded value is callable, so an object with an own `toString`
property has no usable conversion (the inherited `valueOf` returns the object
itself) and the operation throws; any other object is converted by
`Object.prototype.toString`.  An array is converted by `join`. -/
def JsVal.toJsString : JsVal → Option String
  | .undefined => some "undefined"
  | .null => some "null"
  | .bool b => some (if b then "true" else "false")
  | .num n => some (toString n)
  | .str s => some s
  | .arr items => (JsVal.joinItems items).map (String.intercalate ",")
  | .obj fields => if "toString" ∈ JsObj.keys fields then none else some "[object Object]"
/-- The pieces `Array.prototype.join` puts together: `null` and `undefined`
elements contribute the empty string, every other element its `ToString`;
`none` when one of these conversions throws. -/
def JsVal.joinItems : List JsVal → Option (List String)
  | [] => some []
  | .undefined :: rest => (JsVal.joinItems rest).map (fun ts => "" :: ts)
  | .null :: rest => (JsVal.joinItems rest).map (fun ts => "" :: ts)
  | v :: rest =>
    match JsVal.toJsString v, JsVal.joinItems rest with
    | some t, some ts => some (t :: ts)
    | _, _ => none
end

/-- The value of a character as a digit (`0-9`, `a-z`, `A-Z`). -/
def digitValue (c : Char) : Option Nat :=
  let n := c.toNat
  if 48 ≤ n ∧ n ≤ 57 then some (n - 48)
  else if 97 ≤ n ∧ n ≤ 122 then some (n - 87)
  else if 65 ≤ n ∧ n ≤ 90 then some (n - 55)
  else none

/-- The longest run of leading digits of the given radix. -/
def takeDigits (radix : Nat) : List Char → List Nat
  | [] => []
  | c :: cs =>
    match digitValue c with
    | some d => if d < radix then d :: takeDigits radix cs else []
    | none => []

/-- The function `parseInt(string)` without a radix argument; `none` is `NaN`.
Leading white space is skipped, a sign is read, a leading `0x` or `0X` selects
radix 16, and the longest run of digits is converted. -/
def jsParseIntChars (input : List Char) : Option Int :=
  let s := input.dropWhile isJsWhitespace
  let signed : Bool × List Char :=
    match s with
    | '-' :: r => (true, r)
    | '+' :: r => (false, r)
    | _ => (false, s)
  let based : Nat × List Char :=
    match signed.2 with
    | '0' :: 'x' :: r => (16, r)
    | '0' :: 'X' :: r => (16, r)
    | _ => (10, signed.2)
  let digits := takeDigits based.1 based.2
  if digits.isEmpty then none
  else
    let n : Nat := digits.foldl (fun acc d => acc * based.1 + d) 0
    some (if signed.1 then -(n : Int) else (n : Int))

/-- The function `parseInt(v)` with the exception made explicit: the argument
is converted to a string first, which can throw (outer `none`); the inner
`none` is `NaN`. -/
def parseIntE (v : JsVal) : Option (Option Int) :=
  v.toJsString.map (fun text => jsParseIntChars text.data)

/-- The integer `parseInt(v)` returns: `none` when it returns `NaN`, and also
when the conversion of `v` to a string throws (`parseIntE` tells the two
apart).  On a string argument nothing throws. -/
def jsParseInt (v : JsVal) : Option Int :=
  match v.toJsString with
  | some text => jsParseIntChars text.data
  | none => none

/-- The result `{ valid, errors }` of a validator. -/
structure Validation where
  valid : Bool
  errors : List String
  deriving DecidableEq, Repr

/-- The result `{ valid, error }` of `validateCardId`. -/
structure IdValidation where
  valid : Bool
  error : Option String
  deriving DecidableEq, Repr

/-- The test `v.trim() === ''`; it is only evaluated after `typeof v` has been
found to be `string`. -/
def trimIsEmpty : JsVal → Bool
  | .str s => jsTrim s == ""
  | _ => false

/-- The creation test
`!v || typeof v !== 'string' || v.trim() === ''`. -/
def requiredFieldBad (v : JsVal) : Bool :=
  !v.truthy || v.typeof != "string" || trimIsEmpty v

/-- The update test `typeof v !== 'string' || v.trim() === ''`. -/
def optionalFieldBad (v : JsVal) : Bool :=
  v.typeof != "string" || trimIsEmpty v

/-- Source: `validateCardData`. -/
def validateCardData (cardData : JsVal) (isCreation : Bool) : Validation :=
  if !cardData.truthy || cardData.typeof != "object" then
    { valid := false, errors := ["Card data must be a valid object"] }
  else
    let errors : List String :=
      if isCreation then
        (if requiredFieldBad (cardData.getProp "suit") then
          ["suit is required and must be a non-empty string"] else []) ++
        (if requiredFieldBad (cardData.getProp "value") then
          ["value is required and must be a non-empty string"] else []) ++
        (if requiredFieldBad (cardData.getProp "collection") then
          ["collection is required and must be a non-empty string"] else [])
      else
        (if cardData.getProp "suit" ≠ .undefined ∧ optionalFieldBad (cardData.getProp "suit") then
          ["suit must be a non-empty string"] else []) ++
        (if cardData.getProp "value" ≠ .undefined ∧ optionalFieldBad (cardData.getProp "value") then
          ["value must be a non-empty string"] else []) ++
        (if cardData.getProp "collection" ≠ .undefined ∧
            optionalFieldBad (cardData.getProp "collection") then
          ["collection must be a non-empty string"] else [])
    { valid := errors.length == 0, errors := errors }

/-- Source: `validateCardId`, for an `id` on which `parseInt(id)` returns
(every string, as the controller passes it); see `validateCardIdE` for the
exception. -/
def validateCardId (id : JsVal) : IdValidation :=
  match jsParseInt id with
  | none => { valid := false, error := some "Card ID must be a positive number" }
  | some parsedId =>
    if parsedId ≤ 0 then { valid := false, error := some "Card ID must be a positive number" }
    else { valid := true, error := none }

/-- Source: `validateCardId`, with the exception made explicit: `none` when
`parseInt(id)` throws, which is the only step that can. -/
def validateCardIdE (id : JsVal) : Option IdValidation :=
  match parseIntE id with
  | none => none
  | some none => some { valid := false, error := some "Card ID must be a positive number" }
  | some (some parsedId) =>
    if parsedId ≤ 0 then
      some { valid := false, error := some "Card ID must be a positive number" }
    else some { valid := true, error := none }

/-! ## Controller (`src/controllers/card.controller.js`) -/

/-- An HTTP response: status code and JSON body. -/
structure Response where
  status : Nat
  body : JsVal
  deriving DecidableEq

/-- The error bodies `{ error, message, timestamp }`. -/
def errorBody (error message : String) (now : Timestamp) : JsVal :=
  .obj [("error", .str error), ("message", .str message), ("timestamp", .str now)]

/-- The call `v.trim()`: defined on strings; on any other value it throws
(`none`). -/
def trimCall : JsVal → Option JsVal
  | .str s => some (.str (jsTrim s))
  | _ => none

/-- The template text of a number; `none` is `NaN`. -/
def idText : Option Int → String
  | some id => toString id
  | none => "NaN"

namespace CardController

/-- Source: `CardController.createCard`, on request body `body`.  The clock
readings are those of the model on the success path; on the two failure paths
the single reading of the response is `t1`. -/
def createCard (s : Store) (body : JsVal) (t1 t2 : Timestamp) : Response × Store :=
  let validation := validateCardData body true
  if !validation.valid then
    (⟨400, errorBody "Bad Request" (String.intercalate "; " validation.errors) t1⟩, s)
  else
    match trimCall (body.getProp "suit"), trimCall (body.getProp "value"),
        trimCall (body.getProp "collection") with
    | some suit, some value, some collection =>
      let cardData : JsObj := [("suit", suit), ("value", value), ("collection", collection)]
      let created := CardService.createCard s cardData t1 t2
      (⟨201, .obj created.1⟩, created.2)
    | _, _, _ =>
      (⟨500, errorBody "Internal Server Error" "Failed to create card" t1⟩, s)

/-- One statement `if (req.body.k !== undefined) updates.k = req.body.k.trim()`
of `updateCard`; `none` when an earlier statement or this `trim` call has
thrown. -/
def copyTrimmed (body : JsVal) (acc : Option JsObj) (k : String) : Option JsObj :=
  match acc with
  | none => none
  | some updates =>
    if body.getProp k ≠ .undefined then
      match trimCall (body.getProp k) with
      | some v => some (updates.set k v)
      | none => none
    else some updates

/-- The statements of `updateCard` that build `updates` from the empty object:
`suit`, then `value`, then `collection`. -/
def buildUpdates (body : JsVal) : Option JsObj :=
  copyTrimmed body (copyTrimmed body (copyTrimmed body (some []) "suit") "value") "collection"

/-- The body of the 400 answer to a bad id: `message` is
`idValidation.error`. -/
def idErrorBody (idValidation : IdValidation) (now : Timestamp) : JsVal :=
  .obj [("error", .str "Bad Request"),
    ("message", match idValidation.error with | some e => .str e | none => .null),
    ("timestamp", .str now)]

/-- The body of the 404 answer; `id` is the parsed id, `none` for `NaN`. -/
def notFoundBody (id : Option Int) (now : Timestamp) : JsVal :=
  errorBody "Not Found" ("Card with ID " ++ idText id ++ " does not exist") now

/-- Source: `CardController.updateCard`, on path parameter `idParam` and
request body `body`; `now` is the single clock reading that reaches the
result.  A parsed id of `NaN` (`none`) matches no card. -/
def updateCard (s : Store) (idParam : String) (body : JsVal) (now : Timestamp) :
    Response × Store :=
  let idValidation := validateCardId (.str idParam)
  if !idValidation.valid then (⟨400, idErrorBody idValidation now⟩, s)
  else
    match jsParseInt (.str idParam) with
    | none => (⟨404, notFoundBody none now⟩, s)
    | some id =>
      match CardService.getCardById s id with
      | none => (⟨404, notFoundBody (some id) now⟩, s)
      | some _ =>
        let validation := validateCardData body false
        if !validation.valid then
          (⟨400, errorBody "Bad Request" (String.intercalate "; " validation.errors) now⟩, s)
        else
          match buildUpdates body with
          | none => (⟨500, errorBody "Internal Server Error" "Failed to update card" now⟩, s)
          | some updates =>
            let updated := CardService.updateCard s id updates now
            (⟨200, match updated.1 with | some card => .obj card | none => .null⟩, updated.2)

/-- Source: `CardController.deleteCard`, on path parameter `idParam`. -/
def deleteCard (s : Store) (idParam : String) (now : Timestamp) : Response × Store :=
  let idValidation := validateCardId (.str idParam)
  if !idValidation.valid then (⟨400, idErrorBody idValidation now⟩, s)
  else
    match jsParseInt (.str idParam) with
    | none => (⟨404, notFoundBody none now⟩, s)
    | some id =>
      match CardService.getCardById s id with
      | none => (⟨404, notFoundBody (some id) now⟩, s)
      | some _ =>
        let deleted := CardService.deleteCard s id
        (⟨200, .obj [("message", .str "Card deleted successfully"), ("id", .num id),
          ("timestamp", .str now)]⟩, deleted.2)

end CardController

/-! ## Requests and reachable states -/

/-- The state-changing requests the router dispatches to the controller. -/
inductive Request where
  | post (body : JsVal) (t1 t2 : Timestamp)
  | put (idParam : String) (body : JsVal) (now : Timestamp)
  | del (idParam : String) (now : Timestamp)

/-- The router (`src/routes/card.routes.js`): `POST /cards`, `PUT /cards/:id`
and `DELETE /cards/:id`. -/
def handle (s : Store) : Request → Response × Store
  | .post body t1 t2 => CardController.createCard s body t1 t2
  | .put idParam body now => CardController.updateCard s idParam body now
  | .del idParam now => CardController.deleteCard s idParam now

/-- The store after a sequence of requests, served one after the other. -/
def serve (s : Store) (requests : List Request) : Store :=
  requests.foldl (fun st r => (handle st r).2) s

/-- Direct calls of the three mutating operations of the model. -/
inductive StoreOp where
  | insert (cardData : JsObj) (t1 t2 : Timestamp)
  | update (id : Int) (updates : JsObj) (now : Timestamp)
  | delete (id : Int)

/-- The store after one operation. -/
def StoreOp.run (s : Store) : StoreOp → Store
  | .insert cardData t1 t2 => (CardModel.create s cardData t1 t2).2
  | .update id updates now => (CardModel.update s id updates now).2
  | .delete id => (CardModel.delete s id).2

/-- The cards an operation puts into the store: the new card of an insert, the
rewritten card of a successful update. -/
def StoreOp.produced (s : Store) : StoreOp → List JsObj
  | .insert cardData t1 t2 => [(CardModel.create s cardData t1 t2).1]
  | .update id updates now => (CardModel.update s id updates now).1.toList
  | .delete _ => []

/-- An operation that does not write the `id` property: inserts, deletes, and
updates whose `updates` object has no `id` key. -/
def StoreOp.keepsId : StoreOp → Prop
  | .update _ updates _ => "id" ∉ updates.keys
  | _ => True

instance (op : StoreOp) : Decidable op.keepsId := by
  cases op <;> unfold StoreOp.keepsId <;> infer_instance

/-- The store and the record of every card that has ever been in it, after a
sequence of operations on the seed store. -/
def runOps (ops : List StoreOp) : Store × List JsObj :=
  ops.foldl (fun st op => (op.run st.1, st.2 ++ op.produced st.1)) (seed, seed.cards)

/-- The `id` properties of a list of cards, in order. -/
def idsOf (cards : List JsObj) : List JsVal := cards.map (fun c => c.get "id")

/-- The ids of the stored cards are numbers in strictly increasing order, all
below the counter `nextId`. -/
def IdsOrdered (s : Store) : Prop :=
  ∃ ks : List Int, idsOf s.cards = ks.map JsVal.num ∧ ks.Pairwise (· < ·) ∧
    ∀ k ∈ ks, k < s.nextId

/-! ## Pagination parameters and the read handlers -/

/-- A JavaScript number as far as comparisons with integers can tell: `NaN`,
an infinity, an integer, or a finite value strictly between the integers `n`
and `n + 1`. -/
inductive JsNumber where
  | nan
  | negInf
  | posInf
  | int (n : Int)
  | between (n : Int)
  deriving DecidableEq, Repr

namespace JsNumber

/-- The function `isNaN` on a number. -/
def isNaN : JsNumber → Bool
  | .nan => true
  | _ => false

/-- The comparison `x < k` with an integer `k`; false on `NaN`. -/
def ltInt (x : JsNumber) (k : Int) : Bool :=
  match x with
  | .nan => false
  | .negInf => true
  | .posInf => false
  | .int n => decide (n < k)
  | .between n => decide (n < k)

/-- The comparison `x > k` with an integer `k`; false on `NaN`. -/
def gtInt (x : JsNumber) (k : Int) : Bool :=
  match x with
  | .nan => false
  | .negInf => false
  | .posInf => true
  | .int n => decide (k < n)
  | .between n => decide (k ≤ n)

end JsNumber

/-- Source: `validatePaginationParams`, on numbers (the documented parameter
type, and what the controller passes). -/
def validatePaginationParams (page limit : JsNumber) : Validation :=
  let errors : List String :=
    (if page.isNaN || page.ltInt 1 then ["page must be a positive integer"] else []) ++
    (if limit.isNaN || limit.ltInt 1 || limit.gtInt 100 then
      ["limit must be a positive integer between 1 and 100"] else [])
  { valid := errors.length == 0, errors := errors }

/-- The abstract operation `ToNumber`, which `isNaN` and the comparisons apply
to an argument that is not a number; `none` when it throws a `TypeError`.  The
conversion of a string to a number is the parameter `stringToNumber`.  An
array is converted through its string form.  An object is converted by
`OrdinaryToPrimitive` (`valueOf` first, which yields no primitive, then
`toString`): it throws when the object has an own `toString` property and is
`NaN` otherwise. -/
def JsVal.toNumber (stringToNumber : String → JsNumber) : JsVal → Option JsNumber
  | .undefined => some .nan
  | .null => some (.int 0)
  | .bool b => some (if b then .int 1 else .int 0)
  | .num n => some (.int n)
  | .str s => some (stringToNumber s)
  | .arr items => (JsVal.arr items).toJsString.map stringToNumber
  | .obj fields => if "toString" ∈ JsObj.keys fields then none else some .nan

/-- Source: `validatePaginationParams`, on arguments of any type, with the
exception made explicit: `isNaN(page)` converts `page` first and
`isNaN(limit)` converts `limit`; `none` when a conversion throws. -/
def validatePaginationParamsOf (stringToNumber : String → JsNumber) (page limit : JsVal) :
    Option Validation :=
  match page.toNumber stringToNumber, limit.toNumber stringToNumber with
  | some p, some l => some (validatePaginationParams p l)
  | _, _ => none

mutual
/-- The value has a conversion to a primitive: it is not an object with an own
`toString` property, and if it is an array, every element has one. -/
def JsVal.convertsToPrimitive : JsVal → Bool
  | .arr items => JsVal.allConvert items
  | .obj fields => !decide ("toString" ∈ JsObj.keys fields)
  | _ => true
/-- Every element of the array has a conversion to a primitive. -/
def JsVal.allConvert : List JsVal → Bool
  | [] => true
  | v :: rest => JsVal.convertsToPrimitive v && JsVal.allConvert rest
end

/-- The expression `n || d` for a parsed number `n`: `NaN` and `0` are falsy
and give the default `d`. -/
def orDefault (n : Option Int) (d : Int) : Int :=
  match n with
  | none => d
  | some k => if k = 0 then d else k

/-- The JSON form of a page reference, `null` when absent. -/
def pageLinkJson : Option PageLink → JsVal
  | some link => .obj [("page", .num link.page), ("limit", .num link.limit)]
  | none => .null

/-- The JSON form of the envelope, as `res.json(result)` sends it. -/
def PaginatedResult.toJson (r : PaginatedResult) : JsVal :=
  .obj [("totalCards", .num r.totalCards), ("totalPages", .num r.totalPages),
    ("currentPage", .num r.currentPage), ("limit", .num r.limit), ("count", .num r.count),
    ("cards", .arr (r.cards.map JsVal.obj)), ("next", pageLinkJson r.next),
    ("previous", pageLinkJson r.previous)]

namespace CardController

/-- Source: `CardController.getCards`, on the query values `req.query.page`
and `req.query.limit` (`undefined` when absent).  When a `parseInt` call
throws, the `catch` block answers 500.  After a successful validation `limit`
is in `[1, 100]`, so the service returns an envelope; the `none` branch of
that match cannot be reached and is given the answer of the `catch` block
too. -/
def getCards (s : Store) (queryPage queryLimit : JsVal) (now : Timestamp) : Response :=
  match parseIntE queryPage, parseIntE queryLimit with
  | some parsedPage, some parsedLimit =>
    let page := orDefault parsedPage 1
    let limit := orDefault parsedLimit 10
    let validation := validatePaginationParams (.int page) (.int limit)
    if !validation.valid then
      ⟨400, errorBody "Bad Request" (String.intercalate "; " validation.errors) now⟩
    else
      match CardService.getPaginatedCards s page limit with
      | some result => ⟨200, result.toJson⟩
      | none => ⟨500, errorBody "Internal Server Error" "Failed to retrieve cards" now⟩
  | _, _ => ⟨500, errorBody "Internal Server Error" "Failed to retrieve cards" now⟩

/-- Source: `CardController.getCardById`, on path parameter `idParam`. -/
def getCardById (s : Store) (idParam : String) (now : Timestamp) : Response :=
  let idValidation := validateCardId (.str idParam)
  if !idValidation.valid then ⟨400, idErrorBody idValidation now⟩
  else
    match jsParseInt (.str idParam) with
    | none => ⟨404, notFoundBody none now⟩
    | some id =>
      match CardService.getCardById s id with
      | none => ⟨404, notFoundBody (some id) now⟩
      | some card => ⟨200, .obj card⟩

end CardController

/-- Every request the router dispatches to the controller: the two reads and
the three state-changing requests. -/
inductive ApiRequest where
  | list (queryPage queryLimit : JsVal) (now : Timestamp)
  | byId (idParam : String) (now : Timestamp)
  | change (r : Request)

/-- The response to a request in store `s`. -/
def answer (s : Store) : ApiRequest → Response
  | .list queryPage queryLimit now => CardController.getCards s queryPage queryLimit now
  | .byId idParam now => CardController.getCardById s idParam now
  | .change r => (handle s r).1

/-- The request is a `DELETE /cards/:id`. -/
def ApiRequest.isDelete : ApiRequest → Bool
  | .change (.del _ _) => true
  | _ => false

/-- The body is an object with a `timestamp` property. -/
def JsVal.hasTimestamp : JsVal → Bool
  | .obj fields => decide ("timestamp" ∈ JsObj.keys fields)
  | _ => false

/-! ## Validation with explicit exceptions -/

/-- Property read `v.k` with the exception made explicit: reading a property
of `undefined` or `null` throws (`none`). -/
def getPropE (v : JsVal) (k : String) : Option JsVal :=
  match v with
  | .undefined => none
  | .null => none
  | _ => some (v.getProp k)

/-- The creation test `!v.k || typeof v.k !== 'string' || v.k.trim() === ''`
evaluated left to right with short-circuit; `none` when a step throws. -/
def requiredFieldBadE (cardData : JsVal) (k : String) : Option Bool := do
  let v ← getPropE cardData k
  if !v.truthy then pure true
  else if v.typeof != "string" then pure true
  else
    let t ← trimCall v
    pure (t == .str "")

/-- The update test `v.k !== undefined` and then
`typeof v.k !== 'string' || v.k.trim() === ''`, evaluated left to right;
`none` when a step throws. -/
def optionalFieldBadE (cardData : JsVal) (k : String) : Option Bool := do
  let v ← getPropE cardData k
  if v = .undefined then pure false
  else if v.typeof != "string" then pure true
  else
    let t ← trimCall v
    pure (t == .str "")

/-- One `if (test) errors.push(message)` statement. -/
def pushIf (test : Option Bool) (message : String) (errors : List String) :
    Option (List String) :=
  test.map (fun bad => if bad then errors ++ [message] else errors)

/-- Source: `validateCardData`, statement by statement, with every operation
that can throw made explicit; `none` when the function throws. -/
def validateCardDataE (cardData : JsVal) (isCreation : Bool) : Option Validation :=
  if !cardData.truthy || cardData.typeof != "object" then
    some { valid := false, errors := ["Card data must be a valid object"] }
  else
    let errors : Option (List String) :=
      if isCreation then do
        let e1 ← pushIf (requiredFieldBadE cardData "suit")
          "suit is required and must be a non-empty string" []
        let e2 ← pushIf (requiredFieldBadE cardData "value")
          "value is required and must be a non-empty string" e1
        pushIf (requiredFieldBadE cardData "collection")
          "collection is required and must be a non-empty string" e2
      else do
        let e1 ← pushIf (optionalFieldBadE cardData "suit") "suit must be a non-empty string" []
        let e2 ← pushIf (optionalFieldBadE cardData "value") "value must be a non-empty string" e1
        pushIf (optionalFieldBadE cardData "collection")
          "collection must be a non-empty string" e2
    errors.map (fun es => { valid := es.length == 0, errors := es })

/-! ## The rule on card fields, in the words of the specification -/

/-- A field value that is present, a string, and non-empty after trimming
white space. -/
def isNonEmptyString : JsVal → Bool
  | .str s => jsTrim s != ""
  | _ => false

/-- The update test on one field: it offends when it is present (not
`undefined`) and is not a non-empty string. -/
def offendsOnUpdate (v : JsVal) : Bool := decide (v ≠ .undefined) && !isNonEmptyString v

/-- The fields the validators look at, in the order they are checked. -/
def cardFieldNames : List String := ["suit", "value", "collection"]

/-- The ids of the stored cards are positive numbers, and so is the counter. -/
def IdsPositive (s : Store) : Prop :=
  0 < s.nextId ∧ ∀ c ∈ s.cards, ∃ k, c.get "id" = .num k ∧ 0 < k

/-- The `cards` field of `getPaginatedCards(page, limit)`; the empty list where
the embedding has no envelope. -/
def pageCards (s : Store) (limit page : Int) : List JsObj :=
  match CardService.getPaginatedCards s page limit with
  | some r => r.cards
  | none => []

/-- The `cards` fields of the pages `1, 2, ..., totalPages`, one after the
other. -/
def allPagesCards (s : Store) (limit : Int) (totalPages : Nat) : List JsObj :=
  (List.range totalPages).flatMap (fun i => pageCards s limit ((i : Int) + 1))

/-! ## Pagination arithmetic -/

/-- The quotient computed by `mathCeilDiv` is the least multiple count that
covers `n`. -/
theorem mathCeilDiv_spec (n : Nat) (limit : Int) (h : 1 ≤ limit) :
    (n : Int) ≤ mathCeilDiv n limit * limit ∧ mathCeilDiv n limit * limit < n + limit := by
  have hpos : 0 < limit := by omega
  have h1 := Int.ediv_mul_le (-(n : Int)) (ne_of_gt hpos)
  have h2 := Int.lt_ediv_add_one_mul_self (-(n : Int)) hpos
  unfold mathCeilDiv
  constructor
  · nlinarith
  · nlinarith

theorem mathCeilDiv_nonneg (n : Nat) (limit : Int) (h : 1 ≤ limit) :
    0 ≤ mathCeilDiv n limit := by
  obtain ⟨_, h2⟩ := mathCeilDiv_spec n limit h
  by_contra hneg
  have : mathCeilDiv n limit ≤ -1 := by omega
  nlinarith

theorem mathCeilDiv_eq_zero_iff (n : Nat) (limit : Int) (h : 1 ≤ limit) :
    mathCeilDiv n limit = 0 ↔ n = 0 := by
  obtain ⟨h1, h2⟩ := mathCeilDiv_spec n limit h
  have h0 := mathCeilDiv_nonneg n limit h
  constructor
  · intro hq
    rw [hq] at h1
    omega
  · intro hn
    subst hn
    by_contra hne
    have hq : 1 ≤ mathCeilDiv 0 limit := by omega
    have h3 : mathCeilDiv 0 limit * limit < limit := by simpa using h2
    nlinarith

/-- The value `mathCeilDiv` is the ceiling of the exact quotient. -/
theorem mathCeilDiv_eq_ceil (n : Nat) (limit : Int) (h : 1 ≤ limit) :
    mathCeilDiv n limit = ⌈(n : ℚ) / (limit : ℚ)⌉ := by
  obtain ⟨h1, h2⟩ := mathCeilDiv_spec n limit h
  have hpos : (0 : ℚ) < (limit : ℚ) := by exact_mod_cast (by omega : 0 < limit)
  symm
  rw [Int.ceil_eq_iff]
  constructor
  · rw [lt_div_iff₀ hpos]
    have : (mathCeilDiv n limit - 1) * limit < (n : Int) := by linarith
    exact_mod_cast this
  · rw [div_le_iff₀ hpos]
    exact_mod_cast h1

theorem totalPagesOf_pos (n : Nat) (limit : Int) (h : 1 ≤ limit) : 1 ≤ totalPagesOf n limit := by
  have h0 := mathCeilDiv_nonneg n limit h
  unfold totalPagesOf
  split <;> omega

theorem totalPagesOf_bounds (n : Nat) (limit : Int) (h : 1 ≤ limit) :
    (totalPagesOf n limit - 1) * limit ≤ n ∧ (n : Int) ≤ totalPagesOf n limit * limit ∧
      (0 < n → (totalPagesOf n limit - 1) * limit < n) := by
  obtain ⟨h1, h2⟩ := mathCeilDiv_spec n limit h
  unfold totalPagesOf
  split
  · rename_i hq
    have hn := (mathCeilDiv_eq_zero_iff n limit h).mp hq
    subst hn
    simp
    omega
  · refine ⟨by linarith, h1, fun _ => by linarith⟩

/-- The envelope for `limit >= 1`, with the guard of the embedding resolved. -/
theorem getPaginatedCards_eq (s : Store) (page limit : Int) (h : 1 ≤ limit) :
    CardService.getPaginatedCards s page limit = some {
      totalCards := s.cards.length
      totalPages := totalPagesOf s.cards.length limit
      currentPage := max 1 (min page (totalPagesOf s.cards.length limit))
      limit := limit
      count := (jsSlice s.cards ((max 1 (min page (totalPagesOf s.cards.length limit)) - 1) * limit)
        ((max 1 (min page (totalPagesOf s.cards.length limit)) - 1) * limit + limit)).length
      cards := jsSlice s.cards ((max 1 (min page (totalPagesOf s.cards.length limit)) - 1) * limit)
        ((max 1 (min page (totalPagesOf s.cards.length limit)) - 1) * limit + limit)
      next := if max 1 (min page (totalPagesOf s.cards.length limit)) <
          totalPagesOf s.cards.length limit then
        some ⟨max 1 (min page (totalPagesOf s.cards.length limit)) + 1, limit⟩ else none
      previous := if max 1 (min page (totalPagesOf s.cards.length limit)) > 1 then
        some ⟨max 1 (min page (totalPagesOf s.cards.length limit)) - 1, limit⟩ else none } := by
  unfold CardService.getPaginatedCards
  rw [if_neg (by omega)]
  rfl

/-- A slice that starts inside the array and ends after its start. -/
theorem jsSlice_eq (xs : List JsObj) (a b : Int) (ha : 0 ≤ a) (hab : a ≤ b)
    (hlen : a ≤ xs.length) :
    jsSlice xs a b = (xs.drop a.toNat).take (min b.toNat xs.length - a.toNat) := by
  unfold jsSlice sliceIndex
  have h1 : ¬ a < 0 := by omega
  have h2 : ¬ b < 0 := by omega
  simp only [h1, h2, if_false]
  have : min a.toNat xs.length = a.toNat := by omega
  rw [this]

/-! ## Claims on pagination -/

/-- C1: for every store and every integer limit of at least 1,
`getPaginatedCards` returns an envelope whose `currentPage` is the requested
page clamped into `[1, totalPages]`: it lies in that range, equals `page` when
`page` already does, and for every `page >= totalPages` it equals `totalPages`
and `next` is null.  (Proved for every integer page, not only `page >= 1`.) -/
theorem getPaginatedCards_currentPage_clamped (s : Store) (page limit : Int)
    (hlimit : 1 ≤ limit) :
    ∃ r, CardService.getPaginatedCards s page limit = some r ∧
      r.currentPage = max 1 (min page r.totalPages) ∧
      1 ≤ r.currentPage ∧ r.currentPage ≤ r.totalPages ∧
      (1 ≤ page → page ≤ r.totalPages → r.currentPage = page) ∧
      (r.totalPages ≤ page → r.currentPage = r.totalPages ∧ r.next = none) := by
  refine ⟨_, getPaginatedCards_eq s page limit hlimit, rfl, ?_, ?_, ?_, ?_⟩
  · exact le_max_left _ _
  · have := totalPagesOf_pos s.cards.length limit hlimit
    dsimp only
    omega
  · intro h1 h2
    dsimp only at h2 ⊢
    omega
  · intro h
    have := totalPagesOf_pos s.cards.length limit hlimit
    dsimp only at h ⊢
    have hcp : max 1 (min page (totalPagesOf s.cards.length limit)) =
        totalPagesOf s.cards.length limit := by omega
    simp only [hcp, lt_irrefl, if_false, and_self]

theorem getPaginatedCards_currentPage_clamped_witness :
    (1 : Int) ≤ 2 ∧ ∃ r, CardService.getPaginatedCards seed 7 2 = some r ∧
      r.currentPage = max 1 (min 7 r.totalPages) ∧
      1 ≤ r.currentPage ∧ r.currentPage ≤ r.totalPages ∧
      ((1 : Int) ≤ 7 → 7 ≤ r.totalPages → r.currentPage = 7) ∧
      (r.totalPages ≤ 7 → r.currentPage = r.totalPages ∧ r.next = none) :=
  ⟨by decide, getPaginatedCards_currentPage_clamped seed 7 2 (by decide)⟩

/-- C2: for every store and every integer limit of at least 1, the envelope
reports `totalCards` equal to the number of cards in the store, and
`totalPages` equal to the ceiling of `totalCards / limit` when the store is
not empty and to 1 when it is empty. -/
theorem getPaginatedCards_totals (s : Store) (page limit : Int) (hlimit : 1 ≤ limit) :
    ∃ r, CardService.getPaginatedCards s page limit = some r ∧
      r.totalCards = (CardModel.getAll s).length ∧
      (CardModel.getAll s ≠ [] → r.totalPages = ⌈(r.totalCards : ℚ) / (limit : ℚ)⌉) ∧
      (CardModel.getAll s = [] → r.totalPages = 1) := by
  refine ⟨_, getPaginatedCards_eq s page limit hlimit, rfl, ?_, ?_⟩
  · intro hne
    simp only [CardModel.getAll] at hne
    have hlen : s.cards.length ≠ 0 := fun h => hne (List.length_eq_zero.mp h)
    simp only [totalPagesOf]
    rw [if_neg (fun hq => hlen ((mathCeilDiv_eq_zero_iff _ _ hlimit).mp hq))]
    exact mathCeilDiv_eq_ceil _ _ hlimit
  · intro he
    simp only [CardModel.getAll] at he
    simp only [totalPagesOf, he, List.length_nil]
    rw [if_pos ((mathCeilDiv_eq_zero_iff _ _ hlimit).mpr rfl)]

theorem getPaginatedCards_totals_witness :
    (1 : Int) ≤ 3 ∧ ∃ r, CardService.getPaginatedCards seed 1 3 = some r ∧
      r.totalCards = (CardModel.getAll seed).length ∧
      (CardModel.getAll seed ≠ [] → r.totalPages = ⌈(r.totalCards : ℚ) / ((3 : Int) : ℚ)⌉) ∧
      (CardModel.getAll seed = [] → r.totalPages = 1) :=
  ⟨by decide, getPaginatedCards_totals seed 1 3 (by decide)⟩

/-- C3: for every store, page and integer limit of at least 1 (in particular
every limit in `[1, 100]`), `cards` is the contiguous run of `getAll()` from
index `start = (currentPage - 1) * limit` up to but excluding
`min(start + limit, totalCards)`, in the same order, and `count` is its
length; so `count <= limit`, and `count = totalCards` when
`totalCards < limit`. -/
theorem getPaginatedCards_cards_slice (s : Store) (page limit : Int) (hlimit : 1 ≤ limit) :
    ∃ r, CardService.getPaginatedCards s page limit = some r ∧
      ∃ start stop : Nat, (start : Int) = (r.currentPage - 1) * limit ∧
        stop = min (start + limit.toNat) r.totalCards ∧ start ≤ stop ∧
        r.cards = ((CardModel.getAll s).drop start).take (stop - start) ∧
        r.cards.length = stop - start ∧
        (∀ j, j < stop - start → r.cards[j]? = (CardModel.getAll s)[start + j]?) ∧
        r.count = r.cards.length ∧
        (r.count : Int) ≤ limit ∧ ((r.totalCards : Int) < limit → r.count = r.totalCards) := by
  refine ⟨_, getPaginatedCards_eq s page limit hlimit, ?_⟩
  dsimp only [CardModel.getAll]
  have hT := totalPagesOf_pos s.cards.length limit hlimit
  obtain ⟨hb1, hb2, hb3⟩ := totalPagesOf_bounds s.cards.length limit hlimit
  generalize totalPagesOf s.cards.length limit = T at hT hb1 hb2 hb3 ⊢
  have hcp1 : 1 ≤ max 1 (min page T) := le_max_left _ _
  have hcpT : max 1 (min page T) ≤ T := by omega
  generalize max 1 (min page T) = cp at hcp1 hcpT ⊢
  have hstart0 : 0 ≤ (cp - 1) * limit := by nlinarith
  have hstartn : (cp - 1) * limit ≤ s.cards.length := by nlinarith
  have hslice := jsSlice_eq s.cards ((cp - 1) * limit) ((cp - 1) * limit + limit)
    hstart0 (by omega) hstartn
  have hend : ((cp - 1) * limit + limit).toNat = ((cp - 1) * limit).toNat + limit.toNat := by
    omega
  rw [hslice, hend]
  refine ⟨((cp - 1) * limit).toNat,
    min (((cp - 1) * limit).toNat + limit.toNat) s.cards.length, ?_, rfl, ?_, rfl, ?_, ?_, rfl,
    ?_, ?_⟩
  · omega
  · omega
  · rw [List.length_take, List.length_drop]
    omega
  · intro j hj
    rw [List.getElem?_take_of_lt hj, List.getElem?_drop]
  · rw [List.length_take, List.length_drop]
    omega
  · intro hlt
    have hT1 : T = 1 := by
      by_contra hne
      have : 2 ≤ T := by omega
      nlinarith
    have hcp1 : cp = 1 := by omega
    rw [List.length_take, List.length_drop, hcp1]
    simp
    omega

theorem getPaginatedCards_cards_slice_witness :
    (1 : Int) ≤ 3 ∧ ∃ r, CardService.getPaginatedCards seed 2 3 = some r ∧
      ∃ start stop : Nat, (start : Int) = (r.currentPage - 1) * 3 ∧
        stop = min (start + (3 : Int).toNat) r.totalCards ∧ start ≤ stop ∧
        r.cards = ((CardModel.getAll seed).drop start).take (stop - start) ∧
        r.cards.length = stop - start ∧
        (∀ j, j < stop - start → r.cards[j]? = (CardModel.getAll seed)[start + j]?) ∧
        r.count = r.cards.length ∧
        (r.count : Int) ≤ 3 ∧ ((r.totalCards : Int) < 3 → r.count = r.totalCards) :=
  ⟨by decide, getPaginatedCards_cards_slice seed 2 3 (by decide)⟩

/-- C4: for every store, page and integer limit of at least 1, `next` is
`{ page: currentPage + 1, limit }` exactly when `currentPage < totalPages` and
null otherwise, and `previous` is `{ page: currentPage - 1, limit }` exactly
when `currentPage > 1` and null otherwise; on the seed store of 4 cards,
page 1 with limit 2 gives `count = 2`, `totalPages = 2`,
`next = { page: 2, limit: 2 }` and `previous = null`. -/
theorem getPaginatedCards_links (s : Store) (page limit : Int) (hlimit : 1 ≤ limit) :
    (∃ r, CardService.getPaginatedCards s page limit = some r ∧
      (r.currentPage < r.totalPages → r.next = some ⟨r.currentPage + 1, limit⟩) ∧
      (¬ r.currentPage < r.totalPages → r.next = none) ∧
      (r.currentPage > 1 → r.previous = some ⟨r.currentPage - 1, limit⟩) ∧
      (¬ r.currentPage > 1 → r.previous = none)) ∧
    (CardModel.getAll seed).length = 4 ∧
    (∃ r, CardService.getPaginatedCards seed 1 2 = some r ∧ r.count = 2 ∧ r.totalPages = 2 ∧
      r.next = some ⟨2, 2⟩ ∧ r.previous = none) := by
  refine ⟨⟨_, getPaginatedCards_eq s page limit hlimit, ?_, ?_, ?_, ?_⟩, rfl, ?_⟩
  · intro h
    dsimp only at h ⊢
    rw [if_pos h]
  · intro h
    dsimp only at h ⊢
    rw [if_neg h]
  · intro h
    dsimp only at h ⊢
    rw [if_pos h]
  · intro h
    dsimp only at h ⊢
    rw [if_neg h]
  · exact ⟨_, rfl, by decide, by decide, by decide, by decide⟩

theorem getPaginatedCards_links_witness :
    (1 : Int) ≤ 1 ∧ (∃ r, CardService.getPaginatedCards seed 2 1 = some r ∧
      (r.currentPage < r.totalPages → r.next = some ⟨r.currentPage + 1, 1⟩) ∧
      (¬ r.currentPage < r.totalPages → r.next = none) ∧
      (r.currentPage > 1 → r.previous = some ⟨r.currentPage - 1, 1⟩) ∧
      (¬ r.currentPage > 1 → r.previous = none)) :=
  ⟨by decide, (getPaginatedCards_links seed 2 1 (by decide)).1⟩

/-! ## Objects and lists -/

theorem JsObj.get_set_self (o : JsObj) (k : String) (v : JsVal) : (o.set k v).get k = v := by
  induction o with
  | nil => simp [JsObj.set, JsObj.get]
  | cons kv rest ih =>
    obtain ⟨k1, v1⟩ := kv
    by_cases h : k1 = k
    · simp [JsObj.set, JsObj.get, h]
    · simp [JsObj.set, JsObj.get, h, ih]

theorem JsObj.get_set_ne (o : JsObj) (k j : String) (v : JsVal) (h : j ≠ k) :
    (o.set k v).get j = o.get j := by
  induction o with
  | nil => simp [JsObj.set, JsObj.get, h.symm]
  | cons kv rest ih =>
    obtain ⟨k1, v1⟩ := kv
    by_cases h1 : k1 = k
    · subst h1
      simp [JsObj.set, JsObj.get, h.symm]
    · by_cases h2 : k1 = j
      · subst h2
        simp [JsObj.set, JsObj.get, h1]
      · simp [JsObj.set, JsObj.get, h1, h2, ih]

theorem JsObj.keys_set (o : JsObj) (k : String) (v : JsVal) :
    ∀ j ∈ (o.set k v).keys, j = k ∨ j ∈ o.keys := by
  induction o with
  | nil => simp [JsObj.set, JsObj.keys]
  | cons kv rest ih =>
    obtain ⟨k1, v1⟩ := kv
    intro j hj
    by_cases h1 : k1 = k
    · simp only [JsObj.set, h1, if_true, JsObj.keys, List.map_cons, List.mem_cons] at hj ⊢
      rcases hj with hj | hj
      · exact Or.inl hj
      · exact Or.inr (Or.inr hj)
    · simp only [JsObj.set, h1, if_false, JsObj.keys, List.map_cons, List.mem_cons] at hj ⊢
      rcases hj with hj | hj
      · exact Or.inr (Or.inl hj)
      · rcases ih j hj with h | h
        · exact Or.inl h
        · exact Or.inr (Or.inr h)

/-- A spread leaves every property it does not name as it was. -/
theorem JsObj.get_spread_of_not_mem (a b : JsObj) (k : String) (h : k ∉ b.keys) :
    (JsObj.spread a b).get k = a.get k := by
  induction b generalizing a with
  | nil => rfl
  | cons kv rest ih =>
    obtain ⟨k1, v1⟩ := kv
    simp only [JsObj.keys, List.map_cons, List.mem_cons, not_or] at h
    have hrest : k ∉ JsObj.keys rest := h.2
    show (JsObj.spread (a.set k1 v1) rest).get k = a.get k
    rw [ih _ hrest, JsObj.get_set_ne _ _ _ _ h.1]

/-- A spread of an object with distinct property names gives each named
property the value it has there. -/
theorem JsObj.get_spread_of_mem (a b : JsObj) (k : String) (v : JsVal)
    (hnodup : b.keys.Nodup) (h : (k, v) ∈ b) : (JsObj.spread a b).get k = v := by
  induction b generalizing a with
  | nil => simp at h
  | cons kv rest ih =>
    obtain ⟨k1, v1⟩ := kv
    simp only [JsObj.keys, List.map_cons, List.nodup_cons] at hnodup
    show (JsObj.spread (a.set k1 v1) rest).get k = v
    rcases List.mem_cons.mp h with h1 | h1
    · obtain ⟨rfl, rfl⟩ := Prod.mk.inj h1
      rw [JsObj.get_spread_of_not_mem _ _ _ hnodup.1, JsObj.get_set_self]
    · exact ih _ hnodup.2 h1

theorem findIndex_eq_none {p : JsObj → Bool} {xs : List JsObj} :
    findIndex p xs = none ↔ xs.find? p = none := by
  induction xs with
  | nil => simp [findIndex]
  | cons c rest ih =>
    by_cases h : p c = true
    · simp [findIndex, h]
    · simp only [Bool.not_eq_true] at h
      simp [findIndex, h, ih]

/-- The index `findIndex` returns is the position of the card `find` returns. -/
theorem findIndex_of_find {p : JsObj → Bool} {xs : List JsObj} {c : JsObj}
    (h : xs.find? p = some c) :
    ∃ i, findIndex p xs = some i ∧ xs[i]? = some c ∧ i < xs.length := by
  induction xs with
  | nil => simp at h
  | cons d rest ih =>
    by_cases hd : p d = true
    · rw [List.find?_cons_of_pos _ hd] at h
      obtain rfl := Option.some.inj h
      exact ⟨0, by simp [findIndex, hd], by simp, by simp⟩
    · rw [List.find?_cons_of_neg _ hd] at h
      obtain ⟨i, hi, hget, hlt⟩ := ih h
      simp only [Bool.not_eq_true] at hd
      exact ⟨i + 1, by simp [findIndex, hd, hi], by simpa using hget, by simpa using hlt⟩

theorem findIndex_some_find {p : JsObj → Bool} {xs : List JsObj} {i : Nat}
    (h : findIndex p xs = some i) :
    ∃ c, xs.find? p = some c ∧ xs[i]? = some c ∧ i < xs.length := by
  cases hf : xs.find? p with
  | none => rw [findIndex_eq_none.mpr hf] at h; cases h
  | some c =>
    obtain ⟨j, hj, hget, hlt⟩ := findIndex_of_find hf
    rw [hj] at h
    obtain rfl := Option.some.inj h
    exact ⟨c, rfl, hget, hlt⟩

/-! ## The model operations, unfolded -/

/-- The card an update writes. -/
theorem update_of_getById (s : Store) (id : Int) (updates : JsObj) (now : Timestamp)
    (old : JsObj) (h : CardModel.getById s id = some old) :
    ∃ i, i < s.cards.length ∧ s.cards[i]? = some old ∧
      CardModel.update s id updates now =
        (some ((JsObj.spread old updates).set "updatedAt" (.str now)),
          { cards := s.cards.set i ((JsObj.spread old updates).set "updatedAt" (.str now)),
            nextId := s.nextId }) := by
  obtain ⟨i, hi, hget, hlt⟩ := findIndex_of_find h
  refine ⟨i, hlt, hget, ?_⟩
  unfold CardModel.update
  rw [hi]
  simp only [List.getD_eq_getElem?_getD, hget, Option.getD_some]

theorem update_of_not_found (s : Store) (id : Int) (updates : JsObj) (now : Timestamp)
    (h : CardModel.getById s id = none) : CardModel.update s id updates now = (none, s) := by
  unfold CardModel.update
  rw [findIndex_eq_none.mpr h]

theorem delete_of_getById (s : Store) (id : Int) (old : JsObj)
    (h : CardModel.getById s id = some old) :
    ∃ i, i < s.cards.length ∧ s.cards[i]? = some old ∧
      CardModel.delete s id = (true, { cards := s.cards.eraseIdx i, nextId := s.nextId }) := by
  obtain ⟨i, hi, hget, hlt⟩ := findIndex_of_find h
  refine ⟨i, hlt, hget, ?_⟩
  unfold CardModel.delete
  rw [hi]

theorem delete_of_not_found (s : Store) (id : Int) (h : CardModel.getById s id = none) :
    CardModel.delete s id = (false, s) := by
  unfold CardModel.delete
  rw [findIndex_eq_none.mpr h]

/-! ## The id invariant -/

theorem idsOf_set_same_id (cards : List JsObj) (i : Nat) (old card : JsObj)
    (hget : cards[i]? = some old) (hid : card.get "id" = old.get "id") :
    idsOf (cards.set i card) = idsOf cards := by
  unfold idsOf
  apply List.ext_getElem?
  intro j
  by_cases hj : i = j
  · subst hj
    obtain ⟨hlt, heq⟩ := List.getElem?_eq_some.mp hget
    simp [List.getElem?_map, List.getElem?_set, hlt, heq, hid]
  · simp [List.getElem?_map, List.getElem?_set, hj]

theorem IdsOrdered.nodup {s : Store} (h : IdsOrdered s) : (idsOf s.cards).Nodup := by
  obtain ⟨ks, hks, hsorted, _⟩ := h
  rw [hks]
  refine List.Nodup.map ?_ (hsorted.imp (fun hab => ne_of_lt hab))
  intro a b hab
  exact JsVal.num.inj hab

theorem mem_of_getElem?_eq_some {xs : List JsObj} {i : Nat} {c : JsObj}
    (h : xs[i]? = some c) : c ∈ xs := by
  obtain ⟨hlt, heq⟩ := List.getElem?_eq_some.mp h
  rw [← heq]
  exact List.getElem_mem hlt

theorem IdsOrdered.mem {s : Store} (h : IdsOrdered s) (c : JsObj) (hc : c ∈ s.cards) :
    ∃ k, c.get "id" = .num k ∧ k < s.nextId := by
  obtain ⟨ks, hks, _, hlt⟩ := h
  have hmem : c.get "id" ∈ idsOf s.cards := List.mem_map.mpr ⟨c, hc, rfl⟩
  rw [hks] at hmem
  obtain ⟨k, hk, heq⟩ := List.mem_map.mp hmem
  exact ⟨k, heq.symm, hlt k hk⟩

theorem IdsOrdered.seed : IdsOrdered seed :=
  ⟨[171836785992, 171836785993, 171836785994, 171836785995], by decide, by decide, by decide⟩

theorem IdsOrdered.create {s : Store} (h : IdsOrdered s) (cardData : JsObj)
    (t1 t2 : Timestamp) : IdsOrdered (CardModel.create s cardData t1 t2).2 := by
  obtain ⟨ks, hks, hsorted, hlt⟩ := h
  refine ⟨ks ++ [s.nextId], ?_, ?_, ?_⟩
  · simp only [CardModel.create, idsOf, List.map_append, List.map_cons, List.map_nil]
    unfold idsOf at hks
    rw [hks]
    simp [JsObj.get]
  · rw [List.pairwise_append]
    refine ⟨hsorted, List.pairwise_singleton _ _, ?_⟩
    intro a ha b hb
    rw [List.mem_singleton] at hb
    subst hb
    exact hlt a ha
  · intro k hk
    simp only [CardModel.create]
    rcases List.mem_append.mp hk with hk | hk
    · have := hlt k hk
      omega
    · rw [List.mem_singleton] at hk
      omega

/-- An update that does not name `id` keeps the id of every card. -/
theorem update_ids (s : Store) (id : Int) (updates : JsObj) (now : Timestamp)
    (hkey : "id" ∉ updates.keys) :
    idsOf (CardModel.update s id updates now).2.cards = idsOf s.cards ∧
      (CardModel.update s id updates now).2.nextId = s.nextId := by
  cases hfind : CardModel.getById s id with
  | none => rw [update_of_not_found s id updates now hfind]; exact ⟨rfl, rfl⟩
  | some old =>
    obtain ⟨i, _, hget, hupd⟩ := update_of_getById s id updates now old hfind
    rw [hupd]
    refine ⟨idsOf_set_same_id _ _ old _ hget ?_, rfl⟩
    rw [JsObj.get_set_ne _ _ _ _ (by decide), JsObj.get_spread_of_not_mem _ _ _ hkey]

theorem IdsOrdered.update {s : Store} (h : IdsOrdered s) (id : Int) (updates : JsObj)
    (now : Timestamp) (hkey : "id" ∉ updates.keys) :
    IdsOrdered (CardModel.update s id updates now).2 := by
  obtain ⟨ks, hks, hsorted, hlt⟩ := h
  obtain ⟨hids, hnext⟩ := update_ids s id updates now hkey
  exact ⟨ks, by rw [hids, hks], hsorted, by rw [hnext]; exact hlt⟩

/-- A delete leaves a sub-list of the cards and does not touch the counter. -/
theorem delete_sublist (s : Store) (id : Int) :
    List.Sublist (CardModel.delete s id).2.cards s.cards ∧
      (CardModel.delete s id).2.nextId = s.nextId := by
  cases hfind : CardModel.getById s id with
  | none => rw [delete_of_not_found s id hfind]; exact ⟨List.Sublist.refl _, rfl⟩
  | some old =>
    obtain ⟨i, _, _, hdel⟩ := delete_of_getById s id old hfind
    rw [hdel]
    exact ⟨List.eraseIdx_sublist _ _, rfl⟩

theorem IdsOrdered.delete {s : Store} (h : IdsOrdered s) (id : Int) :
    IdsOrdered (CardModel.delete s id).2 := by
  obtain ⟨ks, hks, hsorted, hlt⟩ := h
  obtain ⟨hsub, hnext⟩ := delete_sublist s id
  have hsub2 : List.Sublist (idsOf (CardModel.delete s id).2.cards) (ks.map JsVal.num) := by
    rw [← hks]
    exact hsub.map _
  obtain ⟨ks2, hks2, hmap⟩ := List.sublist_map_iff.mp hsub2
  exact ⟨ks2, hmap, hsorted.sublist hks2, fun k hk => by rw [hnext]; exact hlt k (hks2.subset hk)⟩

/-! ## The controller, unfolded -/

theorem copyTrimmed_keys (body : JsVal) (acc : Option JsObj) (k : String)
    (allowed : List String) (u : JsObj)
    (hacc : ∀ a, acc = some a → ∀ j ∈ a.keys, j ∈ allowed)
    (hu : CardController.copyTrimmed body acc k = some u) :
    ∀ j ∈ u.keys, j = k ∨ j ∈ allowed := by
  cases acc with
  | none => simp [CardController.copyTrimmed] at hu
  | some a =>
    simp only [CardController.copyTrimmed] at hu
    split at hu
    · split at hu
      · obtain rfl := Option.some.inj hu
        intro j hj
        rcases JsObj.keys_set _ _ _ j hj with h1 | h1
        · exact Or.inl h1
        · exact Or.inr (hacc a rfl j h1)
      · cases hu
    · obtain rfl := Option.some.inj hu
      intro j hj
      exact Or.inr (hacc a rfl j hj)

theorem buildUpdates_keys (body : JsVal) (updates : JsObj)
    (h : CardController.buildUpdates body = some updates) :
    ∀ k ∈ updates.keys, k = "suit" ∨ k = "value" ∨ k = "collection" := by
  unfold CardController.buildUpdates at h
  have k1 : ∀ a, CardController.copyTrimmed body (some []) "suit" = some a →
      ∀ j ∈ a.keys, j ∈ ["suit"] := by
    intro a ha j hj
    rcases copyTrimmed_keys body (some []) "suit" [] a
      (by intro b hb; cases hb; simp [JsObj.keys]) ha j hj with h | h
    · simp [h]
    · simp at h
  have k2 : ∀ a, CardController.copyTrimmed body
      (CardController.copyTrimmed body (some []) "suit") "value" = some a →
      ∀ j ∈ a.keys, j ∈ ["value", "suit"] := by
    intro a ha j hj
    rcases copyTrimmed_keys body _ "value" ["suit"] a k1 ha j hj with h | h
    · simp [h]
    · exact List.mem_cons_of_mem _ h
  intro j hj
  rcases copyTrimmed_keys body _ "collection" ["value", "suit"] updates k2 h j hj with h | h
  · exact Or.inr (Or.inr h)
  · simp only [List.mem_cons, List.mem_singleton, List.not_mem_nil, or_false] at h
    rcases h with h | h
    · exact Or.inr (Or.inl h)
    · exact Or.inl h

/-- The store after `createCard`: untouched, or the store after one
`CardModel.create`. -/
theorem createCard_store (s : Store) (body : JsVal) (t1 t2 : Timestamp) :
    (CardController.createCard s body t1 t2).2 = s ∨
      ∃ cardData, (CardController.createCard s body t1 t2).2 =
        (CardModel.create s cardData t1 t2).2 := by
  unfold CardController.createCard
  dsimp only
  split
  · exact Or.inl rfl
  · split
    · exact Or.inr ⟨_, rfl⟩
    · exact Or.inl rfl

/-- The store after `updateCard`: untouched, or the store after one
`CardModel.update` whose `updates` names only `suit`, `value`, `collection`. -/
theorem updateCard_store (s : Store) (idParam : String) (body : JsVal) (now : Timestamp) :
    (CardController.updateCard s idParam body now).2 = s ∨
      ∃ id updates, (∀ k ∈ JsObj.keys updates, k = "suit" ∨ k = "value" ∨ k = "collection") ∧
        (CardController.updateCard s idParam body now).2 =
          (CardModel.update s id updates now).2 := by
  unfold CardController.updateCard
  dsimp only
  split
  · exact Or.inl rfl
  · split
    · exact Or.inl rfl
    · split
      · exact Or.inl rfl
      · split
        · exact Or.inl rfl
        · split
          · exact Or.inl rfl
          · rename_i updates hb
            exact Or.inr ⟨_, updates, buildUpdates_keys body updates hb, rfl⟩

/-- The store after `deleteCard`: untouched, or the store after one
`CardModel.delete`. -/
theorem deleteCard_store (s : Store) (idParam : String) (now : Timestamp) :
    (CardController.deleteCard s idParam now).2 = s ∨
      ∃ id, (CardController.deleteCard s idParam now).2 = (CardModel.delete s id).2 := by
  unfold CardController.deleteCard
  dsimp only
  split
  · exact Or.inl rfl
  · split
    · exact Or.inl rfl
    · split
      · exact Or.inl rfl
      · exact Or.inr ⟨_, rfl⟩

theorem id_not_mem_of_fields (updates : JsObj)
    (h : ∀ k ∈ JsObj.keys updates, k = "suit" ∨ k = "value" ∨ k = "collection") :
    "id" ∉ JsObj.keys updates := by
  intro hmem
  rcases h _ hmem with h | h | h <;> exact absurd h (by decide)

theorem IdsOrdered.after_request {s : Store} (h : IdsOrdered s) (r : Request) :
    IdsOrdered (handle s r).2 := by
  cases r with
  | post body t1 t2 =>
    rcases createCard_store s body t1 t2 with heq | ⟨cardData, heq⟩
    · simp only [handle, heq]; exact h
    · simp only [handle, heq]; exact h.create cardData t1 t2
  | put idParam body now =>
    rcases updateCard_store s idParam body now with heq | ⟨id, updates, hkeys, heq⟩
    · simp only [handle, heq]; exact h
    · simp only [handle, heq]; exact h.update id updates now (id_not_mem_of_fields _ hkeys)
  | del idParam now =>
    rcases deleteCard_store s idParam now with heq | ⟨id, heq⟩
    · simp only [handle, heq]; exact h
    · simp only [handle, heq]; exact h.delete id

theorem IdsOrdered.after_requests {s : Store} (h : IdsOrdered s) (requests : List Request) :
    IdsOrdered (serve s requests) := by
  induction requests generalizing s with
  | nil => exact h
  | cons r rest ih => exact ih (h.after_request r)

/-! ## Claims on the store -/

/-- C5: in every state reachable from the seed store by a sequence of create,
update and delete requests handled by the controller, the ids of the live
cards are pairwise distinct; and no request changes the id of a card: an update
request leaves the id at every position of the list as it was, a create
request leaves the existing cards as they were (they are a leading part of the
new list), and a delete request only removes (the new list is a sub-list of
the old one). -/
theorem card_ids_unique_and_stable (requests : List Request) (r : Request) :
    (idsOf (serve seed requests).cards).Nodup ∧
      (match r with
        | .put _ _ _ =>
          idsOf (handle (serve seed requests) r).2.cards = idsOf (serve seed requests).cards
        | .post _ _ _ =>
          (serve seed requests).cards <+: (handle (serve seed requests) r).2.cards
        | .del _ _ =>
          List.Sublist (handle (serve seed requests) r).2.cards (serve seed requests).cards) := by
  refine ⟨(IdsOrdered.seed.after_requests requests).nodup, ?_⟩
  generalize serve seed requests = s
  cases r with
  | post body t1 t2 =>
    rcases createCard_store s body t1 t2 with heq | ⟨cardData, heq⟩
    · simp only [handle, heq]; exact List.prefix_refl _
    · simp only [handle, heq, CardModel.create]; exact List.prefix_append _ _
  | put idParam body now =>
    rcases updateCard_store s idParam body now with heq | ⟨id, updates, hkeys, heq⟩
    · simp only [handle, heq]
    · simp only [handle, heq]
      exact (update_ids s id updates now (id_not_mem_of_fields _ hkeys)).1
  | del idParam now =>
    rcases deleteCard_store s idParam now with heq | ⟨id, heq⟩
    · simp only [handle, heq]; exact List.Sublist.refl _
    · simp only [handle, heq]; exact (delete_sublist s id).1

/-- Along operations that do not write `id`, the ids stay ordered below the
counter, the stored cards are part of the record, and every recorded card has
a numeric id below the counter. -/
theorem runOps_invariant (ops : List StoreOp) (hops : ∀ op ∈ ops, op.keepsId) :
    IdsOrdered (runOps ops).1 ∧ (∀ c ∈ (runOps ops).1.cards, c ∈ (runOps ops).2) ∧
      ∀ c ∈ (runOps ops).2, ∃ k, c.get "id" = .num k ∧ k < (runOps ops).1.nextId := by
  induction ops using List.reverseRecOn with
  | nil =>
    exact ⟨IdsOrdered.seed, fun c hc => hc, fun c hc => IdsOrdered.seed.mem c hc⟩
  | append_singleton ops op ih =>
    obtain ⟨hord, hsub, hhist⟩ := ih (fun o ho => hops o (List.mem_append_left _ ho))
    have hop : op.keepsId := hops op (List.mem_append_right _ (List.mem_singleton_self _))
    have hrun : runOps (ops ++ [op]) =
        (op.run (runOps ops).1, (runOps ops).2 ++ op.produced (runOps ops).1) := by
      simp [runOps, List.foldl_append]
    rw [hrun]
    generalize (runOps ops).1 = s at hord hsub hhist
    generalize (runOps ops).2 = hist at hsub hhist
    cases op with
    | insert cardData t1 t2 =>
      refine ⟨hord.create cardData t1 t2, ?_, ?_⟩
      · intro c hc
        simp only [StoreOp.run, StoreOp.produced, CardModel.create] at hc ⊢
        rcases List.mem_append.mp hc with h | h
        · exact List.mem_append_left _ (hsub c h)
        · exact List.mem_append_right _ h
      · intro c hc
        simp only [StoreOp.run, StoreOp.produced, CardModel.create] at hc ⊢
        rcases List.mem_append.mp hc with h | h
        · obtain ⟨k, hk, hlt⟩ := hhist c h
          exact ⟨k, hk, by omega⟩
        · rw [List.mem_singleton] at h
          subst h
          exact ⟨s.nextId, by simp [JsObj.get], by omega⟩
    | update id updates now =>
      have hkey : "id" ∉ JsObj.keys updates := hop
      refine ⟨hord.update id updates now hkey, ?_, ?_⟩
      · intro c hc
        simp only [StoreOp.run, StoreOp.produced] at hc ⊢
        cases hfind : CardModel.getById s id with
        | none =>
          rw [update_of_not_found s id updates now hfind] at hc ⊢
          exact List.mem_append_left _ (hsub c hc)
        | some old =>
          obtain ⟨i, _, _, hupd⟩ := update_of_getById s id updates now old hfind
          rw [hupd] at hc ⊢
          rcases List.mem_or_eq_of_mem_set hc with h | h
          · exact List.mem_append_left _ (hsub c h)
          · exact List.mem_append_right _ (by simp [h])
      · intro c hc
        simp only [StoreOp.run, StoreOp.produced] at hc ⊢
        rw [(update_ids s id updates now hkey).2]
        rcases List.mem_append.mp hc with h | h
        · exact hhist c h
        · cases hfind : CardModel.getById s id with
          | none =>
            rw [update_of_not_found s id updates now hfind] at h
            simp at h
          | some old =>
            obtain ⟨i, _, hget, hupd⟩ := update_of_getById s id updates now old hfind
            rw [hupd] at h
            simp only [Option.toList_some, List.mem_singleton] at h
            subst h
            rw [JsObj.get_set_ne _ _ _ _ (by decide), JsObj.get_spread_of_not_mem _ _ _ hkey]
            exact hhist old (hsub old (mem_of_getElem?_eq_some hget))
    | delete id =>
      obtain ⟨hsl, hnext⟩ := delete_sublist s id
      refine ⟨hord.delete id, ?_, ?_⟩
      · intro c hc
        simp only [StoreOp.run, StoreOp.produced, List.append_nil] at hc ⊢
        exact hsub c (hsl.subset hc)
      · intro c hc
        simp only [StoreOp.run, StoreOp.produced, List.append_nil] at hc ⊢
        rw [hnext]
        exact hhist c hc

/-- C6, as stated, fails: after the store operation
`update(171836785992, { id: 999999999999 })` on the seed store, an insert
returns id `171836785996`, which is not greater than the id `999999999999` of a
card currently in the store. -/
theorem insert_id_not_above_after_id_update :
    ¬ ∀ (ops : List StoreOp) (cardData : JsObj) (t1 t2 : Timestamp),
      ∀ c ∈ (runOps ops).1.cards, ∃ k j : Int, c.get "id" = .num k ∧
        (CardModel.create (runOps ops).1 cardData t1 t2).1.get "id" = .num j ∧ k < j := by
  intro h
  obtain ⟨k, j, hk, hj, hlt⟩ := h [.update 171836785992 [("id", .num 999999999999)] "t"] [] "t" "t"
    [("id", .num 999999999999), ("suit", .str "diamonds"), ("value", .str "queen"),
      ("collection", .str "royal"), ("updatedAt", .str "t")] (by decide)
  have hk2 : k = 999999999999 := (JsVal.num.inj hk).symm
  have hj1 : (CardModel.create
      (runOps [.update 171836785992 [("id", .num 999999999999)] "t"]).1 [] "t" "t").1.get "id" =
      .num 171836785996 := by decide
  rw [hj1] at hj
  have hj2 : j = 171836785996 := (JsVal.num.inj hj).symm
  omega

/-- C6, amended: in every state reachable from the seed store by inserts,
deletes and updates whose `updates` object carries no `id` key (all the
controller ever passes), insert returns a card whose id is the integer
`nextId`, and every card currently in the store and every card that was ever
in it (seed cards, deleted cards and earlier versions of updated cards
included) has an integer id strictly below it: no id is reused. -/
theorem insert_id_above_all (ops : List StoreOp) (hops : ∀ op ∈ ops, op.keepsId)
    (cardData : JsObj) (t1 t2 : Timestamp) :
    (CardModel.create (runOps ops).1 cardData t1 t2).1.get "id" = .num (runOps ops).1.nextId ∧
      (∀ c ∈ (runOps ops).1.cards, c ∈ (runOps ops).2) ∧
      ∀ c ∈ (runOps ops).2, ∃ k, c.get "id" = .num k ∧ k < (runOps ops).1.nextId := by
  obtain ⟨_, hsub, hhist⟩ := runOps_invariant ops hops
  exact ⟨by simp [CardModel.create, JsObj.get], hsub, hhist⟩

theorem insert_id_above_all_witness :
    (∀ op ∈ [StoreOp.insert [("suit", .str "hearts")] "t1" "t2", StoreOp.delete 171836785996,
        StoreOp.update 171836785993 [("suit", .str "clubs")] "t3"], op.keepsId) ∧
      (CardModel.create (runOps [StoreOp.insert [("suit", .str "hearts")] "t1" "t2",
        StoreOp.delete 171836785996,
        StoreOp.update 171836785993 [("suit", .str "clubs")] "t3"]).1 [] "t4" "t5").1.get "id" =
        .num 171836785997 :=
  ⟨by decide,
    (insert_id_above_all [StoreOp.insert [("suit", .str "hearts")] "t1" "t2",
      StoreOp.delete 171836785996,
      StoreOp.update 171836785993 [("suit", .str "clubs")] "t3"] (by decide) [] "t4" "t5").1⟩

/-- C7, as stated, fails: the store update writes whatever keys `updates`
carries.  On the seed store `update(171836785992, { id: 1 })` returns a card
whose id is 1, and `update(171836785992, { createdAt: "x" })` returns a card
whose `createdAt` is `"x"` where the record had none. -/
theorem update_overwrites_id_and_createdAt :
    (¬ ∀ (s : Store) (id : Int) (updates : JsObj) (now : Timestamp) (old : JsObj),
      CardModel.getById s id = some old →
      ∃ card, (CardModel.update s id updates now).1 = some card ∧
        card.get "id" = old.get "id") ∧
    (¬ ∀ (s : Store) (id : Int) (updates : JsObj) (now : Timestamp) (old : JsObj),
      CardModel.getById s id = some old →
      ∃ card, (CardModel.update s id updates now).1 = some card ∧
        card.get "createdAt" = old.get "createdAt") := by
  constructor
  · intro h
    obtain ⟨card, hcard, hid⟩ := h seed 171836785992 [("id", .num 1)] "t"
      [("id", .num 171836785992), ("suit", .str "diamonds"), ("value", .str "queen"),
        ("collection", .str "royal")] (by decide)
    have hval : (CardModel.update seed 171836785992 [("id", .num 1)] "t").1 =
        some [("id", .num 1), ("suit", .str "diamonds"), ("value", .str "queen"),
          ("collection", .str "royal"), ("updatedAt", .str "t")] := by decide
    rw [hval] at hcard
    obtain rfl := Option.some.inj hcard
    exact absurd hid (by decide)
  · intro h
    obtain ⟨card, hcard, hcreated⟩ := h seed 171836785992 [("createdAt", .str "x")] "t"
      [("id", .num 171836785992), ("suit", .str "diamonds"), ("value", .str "queen"),
        ("collection", .str "royal")] (by decide)
    have hval : (CardModel.update seed 171836785992 [("createdAt", .str "x")] "t").1 =
        some [("id", .num 171836785992), ("suit", .str "diamonds"), ("value", .str "queen"),
          ("collection", .str "royal"), ("createdAt", .str "x"), ("updatedAt", .str "t")] := by
      decide
    rw [hval] at hcard
    obtain rfl := Option.some.inj hcard
    exact absurd hcreated (by decide)

/-- C7, amended: for every id of a card in the store and every `updates`
object passed to the store update, the update returns a card; that card has
the same id as the record had before the call when `updates` carries no `id`
key, and the same `createdAt` when `updates` carries no `createdAt` key. -/
theorem update_keeps_id_createdAt (s : Store) (id : Int) (updates : JsObj) (now : Timestamp)
    (old : JsObj) (hold : CardModel.getById s id = some old) :
    ∃ card, (CardModel.update s id updates now).1 = some card ∧
      ("id" ∉ updates.keys → card.get "id" = old.get "id") ∧
      ("createdAt" ∉ updates.keys → card.get "createdAt" = old.get "createdAt") := by
  obtain ⟨i, _, _, hupd⟩ := update_of_getById s id updates now old hold
  refine ⟨_, by rw [hupd], ?_, ?_⟩
  · intro hkey
    rw [JsObj.get_set_ne _ _ _ _ (by decide), JsObj.get_spread_of_not_mem _ _ _ hkey]
  · intro hkey
    rw [JsObj.get_set_ne _ _ _ _ (by decide), JsObj.get_spread_of_not_mem _ _ _ hkey]

theorem update_keeps_id_createdAt_witness :
    CardModel.getById seed 171836785993 = some [("id", .num 171836785993),
        ("suit", .str "hearts"), ("value", .str "king"), ("collection", .str "royal")] ∧
      ∃ card, (CardModel.update seed 171836785993 [("value", .str "ten")] "t").1 = some card ∧
        ("id" ∉ JsObj.keys [("value", .str "ten")] → card.get "id" = .num 171836785993) ∧
        ("createdAt" ∉ JsObj.keys [("value", .str "ten")] →
          card.get "createdAt" = .undefined) :=
  ⟨by decide, update_keeps_id_createdAt seed 171836785993 [("value", .str "ten")] "t"
    [("id", .num 171836785993), ("suit", .str "hearts"), ("value", .str "king"),
      ("collection", .str "royal")] (by decide)⟩

/-- C8: for every id of a card in the store and every update whose `updates`
object names a subset of `suit`, `value`, `collection` (an object: its
property names are distinct), the updated card takes the supplied value for
each supplied field and keeps its previous value for every field not supplied
(all but the refreshed `updatedAt`); the card sits at the position the old
record had, every other position of the list, the number of cards and the id
counter are unchanged. -/
theorem update_fields_frame (s : Store) (id : Int) (updates : JsObj) (now : Timestamp)
    (old : JsObj) (hold : CardModel.getById s id = some old)
    (hkeys : ∀ k ∈ updates.keys, k = "suit" ∨ k = "value" ∨ k = "collection")
    (hnodup : updates.keys.Nodup) :
    ∃ card i, (CardModel.update s id updates now).1 = some card ∧
      s.cards[i]? = some old ∧
      (CardModel.update s id updates now).2.cards[i]? = some card ∧
      (∀ k v, (k, v) ∈ updates → card.get k = v) ∧
      (∀ k, k ∉ updates.keys → k ≠ "updatedAt" → card.get k = old.get k) ∧
      (∀ j : Nat, j ≠ i → (CardModel.update s id updates now).2.cards[j]? = s.cards[j]?) ∧
      (CardModel.update s id updates now).2.cards.length = s.cards.length ∧
      (CardModel.update s id updates now).2.nextId = s.nextId := by
  obtain ⟨i, hlt, hget, hupd⟩ := update_of_getById s id updates now old hold
  refine ⟨_, i, by rw [hupd], hget, ?_, ?_, ?_, ?_, ?_, ?_⟩
  · rw [hupd]
    simp [List.getElem?_set, hlt]
  · intro k v hkv
    have hk : k ∈ JsObj.keys updates := List.mem_map.mpr ⟨(k, v), hkv, rfl⟩
    have hne : k ≠ "updatedAt" := by
      rcases hkeys k hk with h | h | h <;> rw [h] <;> decide
    rw [JsObj.get_set_ne _ _ _ _ hne, JsObj.get_spread_of_mem _ _ _ _ hnodup hkv]
  · intro k hk hne
    rw [JsObj.get_set_ne _ _ _ _ hne, JsObj.get_spread_of_not_mem _ _ _ hk]
  · intro j hj
    rw [hupd]
    simp [List.getElem?_set, hj.symm]
  · rw [hupd]
    simp
  · rw [hupd]

theorem update_fields_frame_witness :
    CardModel.getById seed 171836785993 = some [("id", .num 171836785993),
        ("suit", .str "hearts"), ("value", .str "king"), ("collection", .str "royal")] ∧
      (∀ k ∈ JsObj.keys [("value", .str "ten"), ("suit", .str "clubs")],
        k = "suit" ∨ k = "value" ∨ k = "collection") ∧
      (JsObj.keys [("value", .str "ten"), ("suit", .str "clubs")]).Nodup ∧
      ∃ card i,
        (CardModel.update seed 171836785993 [("value", .str "ten"), ("suit", .str "clubs")]
          "t").1 = some card ∧
        seed.cards[i]? = some [("id", .num 171836785993),
          ("suit", .str "hearts"), ("value", .str "king"), ("collection", .str "royal")] ∧
        (CardModel.update seed 171836785993 [("value", .str "ten"), ("suit", .str "clubs")]
          "t").2.cards[i]? = some card ∧
        (∀ k v, (k, v) ∈ [("value", JsVal.str "ten"), ("suit", JsVal.str "clubs")] →
          card.get k = v) ∧
        (∀ k, k ∉ JsObj.keys [("value", .str "ten"), ("suit", .str "clubs")] →
          k ≠ "updatedAt" → card.get k = JsObj.get [("id", .num 171836785993),
            ("suit", .str "hearts"), ("value", .str "king"), ("collection", .str "royal")] k) ∧
        (∀ j : Nat, j ≠ i →
          (CardModel.update seed 171836785993 [("value", .str "ten"), ("suit", .str "clubs")]
            "t").2.cards[j]? = seed.cards[j]?) ∧
        (CardModel.update seed 171836785993 [("value", .str "ten"), ("suit", .str "clubs")]
          "t").2.cards.length = seed.cards.length ∧
        (CardModel.update seed 171836785993 [("value", .str "ten"), ("suit", .str "clubs")]
          "t").2.nextId = seed.nextId :=
  ⟨by decide, by decide, by decide,
    update_fields_frame seed 171836785993 [("value", .str "ten"), ("suit", .str "clubs")] "t"
      [("id", .num 171836785993), ("suit", .str "hearts"), ("value", .str "king"),
        ("collection", .str "royal")] (by decide) (by decide) (by decide)⟩

/-- C9: in every state reachable from the seed store by inserts, deletes and
updates that do not write `id`, `insert(fields)` returns a card that
`getById(card.id)` finds again; its `suit`, `value` and `collection` are the
supplied ones and it is the last element of `getAll()`.  Its `createdAt` and
`updatedAt` are the two clock readings the insert takes, in that order: they
are equal exactly when the two readings are, not always as the claim has it. -/
theorem create_then_getById (ops : List StoreOp) (hops : ∀ op ∈ ops, op.keepsId)
    (cardData : JsObj) (t1 t2 : Timestamp) :
    ∃ card s', CardModel.create (runOps ops).1 cardData t1 t2 = (card, s') ∧
      card.get "id" = .num (runOps ops).1.nextId ∧
      CardModel.getById s' (runOps ops).1.nextId = some card ∧
      card.get "suit" = cardData.get "suit" ∧ card.get "value" = cardData.get "value" ∧
      card.get "collection" = cardData.get "collection" ∧
      card.get "createdAt" = .str t1 ∧ card.get "updatedAt" = .str t2 ∧
      (card.get "createdAt" = card.get "updatedAt" ↔ t1 = t2) ∧
      (CardModel.getAll s').getLast? = some card := by
  obtain ⟨hord, _, _⟩ := runOps_invariant ops hops
  generalize (runOps ops).1 = s at hord
  refine ⟨_, _, rfl, by simp [JsObj.get], ?_, by simp [JsObj.get], by simp [JsObj.get],
    by simp [JsObj.get], by simp [JsObj.get], by simp [JsObj.get], by simp [JsObj.get], ?_⟩
  · have hnone : s.cards.find? (hasId s.nextId) = none := by
      rw [List.find?_eq_none]
      intro c hc
      obtain ⟨k, hk, hlt⟩ := hord.mem c hc
      simp only [hasId, hk, JsVal.strictEqNum, beq_iff_eq]
      omega
    simp only [CardModel.getById, List.find?_append, hnone, Option.none_or]
    simp [hasId, JsObj.get, JsVal.strictEqNum]
  · simp [CardModel.getAll]

theorem create_then_getById_witness :
    (∀ op ∈ ([] : List StoreOp), op.keepsId) ∧
      ∃ card s', CardModel.create seed [("suit", .str "hearts"), ("value", .str "10"),
          ("collection", .str "classic")] "2024-01-01T00:00:00.000Z"
          "2024-01-01T00:00:00.001Z" = (card, s') ∧
        CardModel.getById s' 171836785996 = some card ∧
        card.get "createdAt" = .str "2024-01-01T00:00:00.000Z" ∧
        card.get "updatedAt" = .str "2024-01-01T00:00:00.001Z" ∧
        card.get "createdAt" ≠ card.get "updatedAt" := by
  refine ⟨by decide, ?_⟩
  obtain ⟨card, s', hc, _, hget, _, _, _, hcreated, hupdated, hiff, _⟩ :=
    create_then_getById [] (by decide) [("suit", .str "hearts"), ("value", .str "10"),
      ("collection", .str "classic")] "2024-01-01T00:00:00.000Z" "2024-01-01T00:00:00.001Z"
  exact ⟨card, s', hc, hget, hcreated, hupdated, fun h => absurd (hiff.mp h) (by decide)⟩

/-- C10, as stated, fails: on the seed store the update of card
`171836785992` returns a card with no `createdAt` at all, so its `updatedAt`
is not later than it; and a card inserted at clock reading `T` and updated at
the same reading `T` comes back with `updatedAt` equal to `createdAt`. -/
theorem update_updatedAt_not_later :
    (¬ ∀ (s : Store) (id : Int) (updates : JsObj) (now : Timestamp) (card : JsObj),
      (CardModel.update s id updates now).1 = some card →
      (card.get "updatedAt").laterThan (card.get "createdAt")) ∧
    (∃ card, (CardModel.update (CardModel.create seed [("suit", .str "hearts"),
        ("value", .str "10"), ("collection", .str "classic")] "2024-01-01T00:00:00.000Z"
        "2024-01-01T00:00:00.000Z").2 171836785996 [("value", .str "9")]
        "2024-01-01T00:00:00.000Z").1 = some card ∧
      card.get "createdAt" = .str "2024-01-01T00:00:00.000Z" ∧
      card.get "updatedAt" = .str "2024-01-01T00:00:00.000Z" ∧
      ¬ (card.get "updatedAt").laterThan (card.get "createdAt")) := by
  constructor
  · intro h
    have hlater := h seed 171836785992 [("suit", .str "clubs")] "2024-01-01T00:00:00.000Z"
      [("id", .num 171836785992), ("suit", .str "clubs"), ("value", .str "queen"),
        ("collection", .str "royal"), ("updatedAt", .str "2024-01-01T00:00:00.000Z")]
      (by decide)
    exact absurd hlater (by decide)
  · exact ⟨_, rfl, by decide, by decide, by decide⟩

/-- C10, amended: for every card in the store that carries a `createdAt`
timestamp (every inserted card) and every update of it whose `updates` object
has no `createdAt` key, the update succeeds, the returned card has `updatedAt`
equal to the clock reading of the update and `createdAt` unchanged, and its
`updatedAt` is strictly later than its `createdAt` exactly when that clock
reading is strictly later than `createdAt`. -/
theorem update_refreshes_updatedAt (s : Store) (id : Int) (updates : JsObj) (now : Timestamp)
    (old : JsObj) (created : Timestamp) (hold : CardModel.getById s id = some old)
    (hcreated : old.get "createdAt" = .str created) (hkey : "createdAt" ∉ updates.keys) :
    ∃ card, (CardModel.update s id updates now).1 = some card ∧
      card.get "updatedAt" = .str now ∧ card.get "createdAt" = .str created ∧
      ((card.get "updatedAt").laterThan (card.get "createdAt") ↔ isoLater now created) := by
  obtain ⟨i, _, _, hupd⟩ := update_of_getById s id updates now old hold
  have h1 : ((JsObj.spread old updates).set "updatedAt" (.str now)).get "updatedAt" =
      .str now := JsObj.get_set_self _ _ _
  have h2 : ((JsObj.spread old updates).set "updatedAt" (.str now)).get "createdAt" =
      .str created := by
    rw [JsObj.get_set_ne _ _ _ _ (by decide), JsObj.get_spread_of_not_mem _ _ _ hkey, hcreated]
  refine ⟨_, by rw [hupd], h1, h2, ?_⟩
  rw [h1, h2]
  exact Iff.rfl

theorem update_refreshes_updatedAt_witness :
    CardModel.getById (CardModel.create seed [("suit", .str "hearts"), ("value", .str "10"),
        ("collection", .str "classic")] "2024-01-01T00:00:00.000Z"
        "2024-01-01T00:00:00.000Z").2 171836785996 =
      some [("id", .num 171836785996), ("suit", .str "hearts"), ("value", .str "10"),
        ("collection", .str "classic"), ("createdAt", .str "2024-01-01T00:00:00.000Z"),
        ("updatedAt", .str "2024-01-01T00:00:00.000Z")] ∧
      ∃ card, (CardModel.update (CardModel.create seed [("suit", .str "hearts"),
          ("value", .str "10"), ("collection", .str "classic")] "2024-01-01T00:00:00.000Z"
          "2024-01-01T00:00:00.000Z").2 171836785996 [("value", .str "9")]
          "2024-01-01T00:00:05.250Z").1 = some card ∧
        card.get "updatedAt" = .str "2024-01-01T00:00:05.250Z" ∧
        card.get "createdAt" = .str "2024-01-01T00:00:00.000Z" ∧
        ((card.get "updatedAt").laterThan (card.get "createdAt") ↔
          isoLater "2024-01-01T00:00:05.250Z" "2024-01-01T00:00:00.000Z") :=
  ⟨by decide, update_refreshes_updatedAt _ 171836785996 [("value", .str "9")]
    "2024-01-01T00:00:05.250Z"
    [("id", .num 171836785996), ("suit", .str "hearts"), ("value", .str "10"),
      ("collection", .str "classic"), ("createdAt", .str "2024-01-01T00:00:00.000Z"),
      ("updatedAt", .str "2024-01-01T00:00:00.000Z")]
    "2024-01-01T00:00:00.000Z" (by decide) (by decide) (by decide)⟩

/-! ## Deleting -/

theorem hasId_iff (id : Int) (c : JsObj) : hasId id c = true ↔ c.get "id" = .num id := by
  unfold hasId JsVal.strictEqNum
  split
  · rename_i n hn
    rw [hn]
    simp
  · rename_i hne
    constructor
    · intro h; cases h
    · intro h; exact absurd h (hne id)

/-- The index `findIndex` returns is the first one that matches. -/
theorem findIndex_first {p : JsObj → Bool} {xs : List JsObj} {i : Nat}
    (h : findIndex p xs = some i) :
    ∀ (j : Nat) (c : JsObj), j < i → xs[j]? = some c → p c = false := by
  induction xs generalizing i with
  | nil => simp [findIndex] at h
  | cons d rest ih =>
    by_cases hd : p d = true
    · simp only [findIndex, hd, if_true, Option.some.injEq] at h
      intro j c hj
      omega
    · simp only [Bool.not_eq_true] at hd
      simp only [findIndex, hd, Bool.false_eq_true, if_false, Option.map_eq_some'] at h
      obtain ⟨k, hk, rfl⟩ := h
      intro j c hj hget
      cases j with
      | zero =>
        simp only [List.getElem?_cons_zero, Option.some.injEq] at hget
        rw [← hget]
        exact hd
      | succ j =>
        simp only [List.getElem?_cons_succ] at hget
        exact ih hk j c (by omega) hget

/-- When the ids are pairwise distinct, removing the first card with a given id
leaves no card with that id. -/
theorem eraseIdx_no_match (id : Int) (xs : List JsObj) (i : Nat)
    (hnodup : (idsOf xs).Nodup) (h : findIndex (hasId id) xs = some i) :
    ∀ c ∈ xs.eraseIdx i, hasId id c = false := by
  induction xs generalizing i with
  | nil => simp [findIndex] at h
  | cons d rest ih =>
    simp only [idsOf, List.map_cons, List.nodup_cons] at hnodup
    by_cases hd : hasId id d = true
    · simp only [findIndex, hd, if_true, Option.some.injEq] at h
      subst h
      intro c hc
      simp only [List.eraseIdx_cons_zero] at hc
      by_contra hcon
      simp only [Bool.not_eq_false] at hcon
      apply hnodup.1
      rw [(hasId_iff id d).mp hd, ← (hasId_iff id c).mp hcon]
      exact List.mem_map.mpr ⟨c, hc, rfl⟩
    · simp only [Bool.not_eq_true] at hd
      simp only [findIndex, hd, Bool.false_eq_true, if_false, Option.map_eq_some'] at h
      obtain ⟨k, hk, rfl⟩ := h
      intro c hc
      simp only [List.eraseIdx_cons_succ, List.mem_cons] at hc
      rcases hc with rfl | hc
      · exact hd
      · exact ih k hnodup.2 hk c hc

/-- C11, as stated, fails on a store that holds two cards with one id: after
the store operation `update(171836785993, { id: 171836785992 })` on the seed
store, `delete(171836785992)` returns true and removes the first of the two,
and the store still holds a card with id `171836785992`. -/
theorem delete_leaves_second_card_with_id :
    ¬ ∀ (ops : List StoreOp) (id : Int), (CardModel.delete (runOps ops).1 id).1 = true →
      ∀ c ∈ (CardModel.delete (runOps ops).1 id).2.cards, hasId id c = false := by
  intro h
  have hfalse := h [.update 171836785993 [("id", .num 171836785992)] "t"] 171836785992
    (by decide)
    [("id", .num 171836785992), ("suit", .str "hearts"), ("value", .str "king"),
      ("collection", .str "royal"), ("updatedAt", .str "t")] (by decide)
  exact absurd hfalse (by decide)

/-- C11, amended: for every store content and id, `delete(id)` returns true
exactly when a card with that id is in the store.  When it returns true, the
first card with that id has been removed: every other card is still present
in the same relative order, the count has dropped by one, and the store holds
no card with that id any more whenever the ids in the store were pairwise
distinct.  When it returns false the store is unchanged.  The id counter is
never touched. -/
theorem delete_removes_first_match (s : Store) (id : Int) :
    ((CardModel.delete s id).1 = true ↔ ∃ c ∈ s.cards, hasId id c = true) ∧
    ((CardModel.delete s id).1 = true →
      ∃ (i : Nat) (c : JsObj), s.cards[i]? = some c ∧ hasId id c = true ∧
        (∀ (j : Nat) (d : JsObj), j < i → s.cards[j]? = some d → hasId id d = false) ∧
        (CardModel.delete s id).2.cards = s.cards.eraseIdx i ∧
        (CardModel.delete s id).2.cards.length + 1 = s.cards.length ∧
        List.Sublist (CardModel.delete s id).2.cards s.cards ∧
        ((idsOf s.cards).Nodup →
          ∀ d ∈ (CardModel.delete s id).2.cards, hasId id d = false)) ∧
    ((CardModel.delete s id).1 = false → (CardModel.delete s id).2 = s) ∧
    (CardModel.delete s id).2.nextId = s.nextId := by
  cases hfind : CardModel.getById s id with
  | none =>
    rw [delete_of_not_found s id hfind]
    refine ⟨?_, ?_, fun _ => rfl, rfl⟩
    · constructor
      · intro h; cases h
      · rintro ⟨c, hc, hid⟩
        have hnone := List.find?_eq_none.mp hfind c hc
        exact absurd hid hnone
    · intro h; cases h
  | some old =>
    obtain ⟨i, hi, hget, hlt⟩ := findIndex_of_find hfind
    have hdel : CardModel.delete s id =
        (true, { cards := s.cards.eraseIdx i, nextId := s.nextId }) := by
      unfold CardModel.delete
      rw [hi]
    rw [hdel]
    refine ⟨?_, ?_, ?_, rfl⟩
    · constructor
      · intro _
        exact ⟨old, List.mem_of_find?_eq_some hfind, List.find?_some hfind⟩
      · intro _; rfl
    · intro _
      refine ⟨i, old, hget, List.find?_some hfind, findIndex_first hi, rfl, ?_,
        List.eraseIdx_sublist _ _, fun hnodup => eraseIdx_no_match id s.cards i hnodup hi⟩
      simp only []
      rw [List.length_eraseIdx_of_lt hlt]
      omega
    · intro h; cases h

/-! ## Positive ids -/

theorem seed_idsPositive : IdsPositive seed := by
  refine ⟨by decide, ?_⟩
  intro c hc
  simp only [seed, List.mem_cons, List.mem_singleton, List.not_mem_nil, or_false] at hc
  rcases hc with rfl | rfl | rfl | rfl
  · exact ⟨171836785992, rfl, by decide⟩
  · exact ⟨171836785993, rfl, by decide⟩
  · exact ⟨171836785994, rfl, by decide⟩
  · exact ⟨171836785995, rfl, by decide⟩

theorem IdsPositive.pos_create {s : Store} (h : IdsPositive s) (cardData : JsObj)
    (t1 t2 : Timestamp) : IdsPositive (CardModel.create s cardData t1 t2).2 := by
  obtain ⟨hnext, hall⟩ := h
  refine ⟨by simp only [CardModel.create]; omega, ?_⟩
  intro c hc
  simp only [CardModel.create] at hc
  rcases List.mem_append.mp hc with hc | hc
  · exact hall c hc
  · rw [List.mem_singleton] at hc
    subst hc
    exact ⟨s.nextId, by simp [JsObj.get], hnext⟩

theorem IdsPositive.pos_update {s : Store} (h : IdsPositive s) (id : Int) (updates : JsObj)
    (now : Timestamp) (hkey : "id" ∉ updates.keys) :
    IdsPositive (CardModel.update s id updates now).2 := by
  obtain ⟨hnext, hall⟩ := h
  cases hfind : CardModel.getById s id with
  | none => rw [update_of_not_found s id updates now hfind]; exact ⟨hnext, hall⟩
  | some old =>
    obtain ⟨i, _, hget, hupd⟩ := update_of_getById s id updates now old hfind
    rw [hupd]
    refine ⟨hnext, ?_⟩
    intro c hc
    rcases List.mem_or_eq_of_mem_set hc with hc | hc
    · exact hall c hc
    · subst hc
      rw [JsObj.get_set_ne _ _ _ _ (by decide), JsObj.get_spread_of_not_mem _ _ _ hkey]
      exact hall old (mem_of_getElem?_eq_some hget)

theorem IdsPositive.pos_delete {s : Store} (h : IdsPositive s) (id : Int) :
    IdsPositive (CardModel.delete s id).2 := by
  obtain ⟨hnext, hall⟩ := h
  obtain ⟨hsub, hn⟩ := delete_sublist s id
  exact ⟨by rw [hn]; exact hnext, fun c hc => hall c (hsub.subset hc)⟩

theorem IdsPositive.pos_after_request {s : Store} (h : IdsPositive s) (r : Request) :
    IdsPositive (handle s r).2 := by
  cases r with
  | post body t1 t2 =>
    rcases createCard_store s body t1 t2 with heq | ⟨cardData, heq⟩
    · simp only [handle, heq]; exact h
    · simp only [handle, heq]; exact h.pos_create cardData t1 t2
  | put idParam body now =>
    rcases updateCard_store s idParam body now with heq | ⟨id, updates, hkeys, heq⟩
    · simp only [handle, heq]; exact h
    · simp only [handle, heq]; exact h.pos_update id updates now (id_not_mem_of_fields _ hkeys)
  | del idParam now =>
    rcases deleteCard_store s idParam now with heq | ⟨id, heq⟩
    · simp only [handle, heq]; exact h
    · simp only [handle, heq]; exact h.pos_delete id

theorem IdsPositive.pos_after_requests {s : Store} (h : IdsPositive s) (requests : List Request) :
    IdsPositive (serve s requests) := by
  induction requests generalizing s with
  | nil => exact h
  | cons r rest ih => exact ih (h.pos_after_request r)

/-- An id that parses to a positive number passes `validateCardId`. -/
theorem validateCardId_of_pos (v : JsVal) (id : Int) (hparse : jsParseInt v = some id)
    (hpos : 0 < id) : validateCardId v = { valid := true, error := none } := by
  unfold validateCardId
  rw [hparse]
  simp only []
  rw [if_neg (by omega)]

/-- The answer of `deleteCard` to the id of a stored card. -/
theorem deleteCard_of_found (s : Store) (idParam : String) (id : Int) (card : JsObj)
    (now : Timestamp) (hparse : jsParseInt (.str idParam) = some id) (hpos : 0 < id)
    (hcard : CardModel.getById s id = some card) :
    CardController.deleteCard s idParam now =
      (⟨200, .obj [("message", .str "Card deleted successfully"), ("id", .num id),
        ("timestamp", .str now)]⟩, (CardModel.delete s id).2) := by
  unfold CardController.deleteCard
  simp only [validateCardId_of_pos _ id hparse hpos, hparse, CardService.getCardById, hcard,
    CardService.deleteCard]
  rfl

/-- The answer of `deleteCard` to a positive id that matches no card. -/
theorem deleteCard_of_not_found (s : Store) (idParam : String) (id : Int) (now : Timestamp)
    (hparse : jsParseInt (.str idParam) = some id) (hpos : 0 < id)
    (hnone : CardModel.getById s id = none) :
    CardController.deleteCard s idParam now = (⟨404, CardController.notFoundBody (some id) now⟩, s) := by
  unfold CardController.deleteCard
  simp only [validateCardId_of_pos _ id hparse hpos, hparse, CardService.getCardById, hnone]
  rfl

/-- After a delete in a store with pairwise distinct ids the id is gone. -/
theorem getById_after_delete (s : Store) (id : Int) (hnodup : (idsOf s.cards).Nodup) :
    CardModel.getById (CardModel.delete s id).2 id = none := by
  cases hfind : CardModel.getById s id with
  | none => rw [delete_of_not_found s id hfind]; exact hfind
  | some old =>
    obtain ⟨i, hi, _, _⟩ := findIndex_of_find hfind
    have hdel : CardModel.delete s id =
        (true, { cards := s.cards.eraseIdx i, nextId := s.nextId }) := by
      unfold CardModel.delete
      rw [hi]
    rw [hdel]
    simp only [CardModel.getById, List.find?_eq_none]
    intro c hc
    rw [eraseIdx_no_match id s.cards i hnodup hi c hc]
    simp

/-- C12: in every state the controller can reach from the seed store, for
every path parameter that parses to the id of a card in the store, two
consecutive `DELETE /cards/:id` requests answer 200 with a body whose `id` is
the deleted id the first time, and 404 the second time. -/
theorem delete_twice (requests : List Request) (idParam : String) (id : Int) (card : JsObj)
    (now1 now2 : Timestamp) (hparse : jsParseInt (.str idParam) = some id)
    (hcard : CardModel.getById (serve seed requests) id = some card) :
    (CardController.deleteCard (serve seed requests) idParam now1).1.status = 200 ∧
      (CardController.deleteCard (serve seed requests) idParam now1).1.body.getProp "id" =
        .num id ∧
      (CardController.deleteCard
        (CardController.deleteCard (serve seed requests) idParam now1).2 idParam now2).1.status =
        404 := by
  have hord := IdsOrdered.seed.after_requests requests
  have hposAll := seed_idsPositive.pos_after_requests requests
  generalize serve seed requests = s at hcard hord hposAll
  have hpos : 0 < id := by
    obtain ⟨k, hk, hk0⟩ := hposAll.2 card (List.mem_of_find?_eq_some hcard)
    have hid := (hasId_iff id card).mp (List.find?_some hcard)
    rw [hid] at hk
    obtain rfl := JsVal.num.inj hk
    exact hk0
  rw [deleteCard_of_found s idParam id card now1 hparse hpos hcard]
  refine ⟨rfl, by simp [JsVal.getProp, JsObj.get], ?_⟩
  rw [deleteCard_of_not_found _ idParam id now2 hparse hpos
    (getById_after_delete s id hord.nodup)]

theorem delete_twice_witness :
    jsParseInt (.str "171836785994") = some 171836785994 ∧
      CardModel.getById (serve seed [.post (.obj [("suit", .str "hearts"), ("value", .str "10"),
        ("collection", .str "classic")]) "t1" "t2"]) 171836785994 =
        some [("id", .num 171836785994), ("suit", .str "clubs"), ("value", .str "ace"),
          ("collection", .str "classic")] ∧
      (CardController.deleteCard (serve seed [.post (.obj [("suit", .str "hearts"),
        ("value", .str "10"), ("collection", .str "classic")]) "t1" "t2"])
        "171836785994" "t3").1.status = 200 ∧
      (CardController.deleteCard
        (CardController.deleteCard (serve seed [.post (.obj [("suit", .str "hearts"),
          ("value", .str "10"), ("collection", .str "classic")]) "t1" "t2"])
          "171836785994" "t3").2 "171836785994" "t4").1.status = 404 :=
  ⟨by decide, by decide,
    (delete_twice [.post (.obj [("suit", .str "hearts"), ("value", .str "10"),
      ("collection", .str "classic")]) "t1" "t2"] "171836785994" 171836785994
      [("id", .num 171836785994), ("suit", .str "clubs"), ("value", .str "ace"),
        ("collection", .str "classic")] "t3" "t4" (by decide) (by decide)).1,
    (delete_twice [.post (.obj [("suit", .str "hearts"), ("value", .str "10"),
      ("collection", .str "classic")]) "t1" "t2"] "171836785994" 171836785994
      [("id", .num 171836785994), ("suit", .str "clubs"), ("value", .str "ace"),
        ("collection", .str "classic")] "t3" "t4" (by decide) (by decide)).2.2⟩

/-! ## Listing -/

/-- What `getCards` answers when both `parseInt` calls return: 400 exactly when
the page after defaulting is below 1 or the limit after defaulting is outside
`[1, 100]`, and otherwise 200 with the envelope for the defaulted page and
limit. -/
theorem getCards_outcome (s : Store) (queryPage queryLimit : JsVal) (now : Timestamp)
    (parsedPage parsedLimit : Option Int) (hpage : parseIntE queryPage = some parsedPage)
    (hlimit : parseIntE queryLimit = some parsedLimit) :
    (orDefault parsedPage 1 < 1 ∨ orDefault parsedLimit 10 < 1 ∨
        100 < orDefault parsedLimit 10 →
      (CardController.getCards s queryPage queryLimit now).status = 400) ∧
    (1 ≤ orDefault parsedPage 1 ∧ 1 ≤ orDefault parsedLimit 10 ∧
        orDefault parsedLimit 10 ≤ 100 →
      ∃ r, CardService.getPaginatedCards s (orDefault parsedPage 1)
          (orDefault parsedLimit 10) = some r ∧
        CardController.getCards s queryPage queryLimit now = ⟨200, r.toJson⟩) := by
  generalize hp : orDefault parsedPage 1 = page
  generalize hl : orDefault parsedLimit 10 = limit
  constructor
  · intro hbad
    have hinvalid : (validatePaginationParams (.int page) (.int limit)).valid = false := by
      simp only [validatePaginationParams, JsNumber.isNaN, JsNumber.ltInt, JsNumber.gtInt,
        Bool.false_or]
      by_cases h1 : page < 1
      · simp [h1]
      · rcases hbad with h | h | h
        · exact absurd h h1
        · simp [h]
        · simp [h]
    unfold CardController.getCards
    simp only [hpage, hlimit, hp, hl, hinvalid]
    rfl
  · rintro ⟨h1, h2, h3⟩
    have hvalid : (validatePaginationParams (.int page) (.int limit)).valid = true := by
      simp only [validatePaginationParams, JsNumber.isNaN, JsNumber.ltInt, JsNumber.gtInt,
        Bool.false_or]
      have a1 : ¬ page < 1 := by omega
      have a2 : ¬ limit < 1 := by omega
      have a3 : ¬ 100 < limit := by omega
      simp [a1, a2, a3]
    refine ⟨_, getPaginatedCards_eq s page limit h2, ?_⟩
    unfold CardController.getCards
    simp only [hpage, hlimit, hp, hl, hvalid, getPaginatedCards_eq s page limit h2]
    rfl

/-- When a `parseInt` call on a query value throws, `getCards` answers 500. -/
theorem getCards_of_throw (s : Store) (queryPage queryLimit : JsVal) (now : Timestamp)
    (h : parseIntE queryPage = none ∨ parseIntE queryLimit = none) :
    CardController.getCards s queryPage queryLimit now =
      ⟨500, errorBody "Internal Server Error" "Failed to retrieve cards" now⟩ := by
  unfold CardController.getCards
  rcases h with h | h
  · rw [h]
  · rw [h]
    cases parseIntE queryPage <;> rfl

/-- C13, evaluated where it fails: `GET /cards?page=abc&limit=0` on the seed
store.  Neither value parses to an integer of at least 1 (`parseInt` gives
`NaN` and `0`), and `validatePaginationParams` rejects `NaN` and `0` with both
messages; but the controller replaces them by the defaults 1 and 10 before it
validates, and answers 200 with the first page of 10. -/
theorem getCards_defaults_bad_values :
    jsParseInt (.str "abc") = none ∧ jsParseInt (.str "0") = some 0 ∧
    validatePaginationParams .nan (.int 0) =
      { valid := false, errors := ["page must be a positive integer",
          "limit must be a positive integer between 1 and 100"] } ∧
    (CardController.getCards seed (.str "abc") (.str "0") "2024-01-01T00:00:00.000Z").status =
      200 ∧
    (CardController.getCards seed (.str "abc") (.str "0")
      "2024-01-01T00:00:00.000Z").body.getProp "currentPage" = .num 1 ∧
    (CardController.getCards seed (.str "abc") (.str "0")
      "2024-01-01T00:00:00.000Z").body.getProp "limit" = .num 10 ∧
    (CardController.getCards seed (.str "abc") (.str "0")
      "2024-01-01T00:00:00.000Z").body.getProp "count" = .num 4 := by
  refine ⟨by decide, by decide, by decide, by decide, by decide, by decide, by decide⟩

/-! ## Validating card fields -/

theorem jsTrim_empty : jsTrim "" = "" := by decide

theorem requiredFieldBad_eq (v : JsVal) : requiredFieldBad v = !isNonEmptyString v := by
  cases v with
  | str s =>
    by_cases hs : s = ""
    · subst hs
      simp [requiredFieldBad, isNonEmptyString, JsVal.truthy, JsVal.typeof, trimIsEmpty,
        jsTrim_empty]
    · have hb : (s == "") = false := beq_eq_false_iff_ne.mpr hs
      simp [requiredFieldBad, isNonEmptyString, JsVal.truthy, JsVal.typeof, trimIsEmpty, bne, hb]
  | _ => simp [requiredFieldBad, isNonEmptyString, JsVal.truthy, JsVal.typeof, trimIsEmpty]

theorem optionalFieldBad_eq (v : JsVal) : optionalFieldBad v = !isNonEmptyString v := by
  cases v <;> simp [optionalFieldBad, isNonEmptyString, JsVal.typeof, trimIsEmpty, bne]

/-- On an object, creation mode checks the three fields one after the other. -/
theorem validateCardData_creation_obj (fields : JsObj) :
    validateCardData (.obj fields) true =
      { valid := ((if isNonEmptyString (fields.get "suit") then [] else
            ["suit is required and must be a non-empty string"]) ++
          (if isNonEmptyString (fields.get "value") then [] else
            ["value is required and must be a non-empty string"]) ++
          (if isNonEmptyString (fields.get "collection") then [] else
            ["collection is required and must be a non-empty string"])).length == 0,
        errors := (if isNonEmptyString (fields.get "suit") then [] else
            ["suit is required and must be a non-empty string"]) ++
          (if isNonEmptyString (fields.get "value") then [] else
            ["value is required and must be a non-empty string"]) ++
          (if isNonEmptyString (fields.get "collection") then [] else
            ["collection is required and must be a non-empty string"]) } := by
  simp only [validateCardData, JsVal.truthy, JsVal.typeof, JsVal.getProp, requiredFieldBad_eq]
  cases isNonEmptyString (fields.get "suit") <;> cases isNonEmptyString (fields.get "value") <;>
    cases isNonEmptyString (fields.get "collection") <;> rfl

/-- C14: for every object `cardData`, `validateCardData(cardData, true)`
returns `valid = true` exactly when `suit`, `value` and `collection` are each
present, a string, and non-empty after trimming white space; and `errors`
holds exactly one message per offending field, in the order `suit`, `value`,
`collection` (so it is empty exactly when `valid` is true). -/
theorem validateCardData_creation_spec (fields : JsObj) :
    ((validateCardData (.obj fields) true).valid = true ↔
      ∀ k ∈ cardFieldNames, isNonEmptyString (JsObj.get fields k) = true) ∧
    (validateCardData (.obj fields) true).errors =
      (cardFieldNames.filter (fun k => !isNonEmptyString (JsObj.get fields k))).map
        (fun k => k ++ " is required and must be a non-empty string") ∧
    ((validateCardData (.obj fields) true).valid = false ↔
      (validateCardData (.obj fields) true).errors ≠ []) := by
  rw [validateCardData_creation_obj]
  simp only [cardFieldNames, List.mem_cons, List.mem_singleton, List.not_mem_nil, or_false,
    forall_eq_or_imp, forall_eq, List.filter]
  cases isNonEmptyString (fields.get "suit") <;> cases isNonEmptyString (fields.get "value") <;>
    cases isNonEmptyString (fields.get "collection") <;> decide

theorem optional_push (v : JsVal) (m : String) :
    (if v ≠ JsVal.undefined ∧ optionalFieldBad v = true then [m] else ([] : List String)) =
      if offendsOnUpdate v = true then [m] else [] := by
  rw [optionalFieldBad_eq]
  by_cases h : v = .undefined <;> simp [offendsOnUpdate, h]

/-- On an object, update mode checks the three fields one after the other. -/
theorem validateCardData_update_obj (fields : JsObj) :
    validateCardData (.obj fields) false =
      { valid := ((if offendsOnUpdate (fields.get "suit") then
            ["suit must be a non-empty string"] else []) ++
          (if offendsOnUpdate (fields.get "value") then
            ["value must be a non-empty string"] else []) ++
          (if offendsOnUpdate (fields.get "collection") then
            ["collection must be a non-empty string"] else [])).length == 0,
        errors := (if offendsOnUpdate (fields.get "suit") then
            ["suit must be a non-empty string"] else []) ++
          (if offendsOnUpdate (fields.get "value") then
            ["value must be a non-empty string"] else []) ++
          (if offendsOnUpdate (fields.get "collection") then
            ["collection must be a non-empty string"] else []) } := by
  simp only [validateCardData, JsVal.truthy, JsVal.typeof, JsVal.getProp, optional_push]
  cases offendsOnUpdate (fields.get "suit") <;> cases offendsOnUpdate (fields.get "value") <;>
    cases offendsOnUpdate (fields.get "collection") <;> rfl

theorem offendsOnUpdate_eq_false (v : JsVal) :
    offendsOnUpdate v = false ↔ v = .undefined ∨ isNonEmptyString v = true := by
  unfold offendsOnUpdate
  by_cases h : v = .undefined
  · simp [h]
  · cases isNonEmptyString v <;> simp [h]

/-- C15: for every object `cardData`, `validateCardData(cardData, false)`
returns `valid = true` exactly when each of `suit`, `value`, `collection` that
is present (not `undefined`) is a string that is non-empty after trimming;
`errors` holds exactly one message per present offending field, in the order
`suit`, `value`, `collection`; an absent field produces no message, so an
object with none of the three fields is valid with no errors. -/
theorem validateCardData_update_spec (fields : JsObj) :
    ((validateCardData (.obj fields) false).valid = true ↔
      ∀ k ∈ cardFieldNames,
        JsObj.get fields k = .undefined ∨ isNonEmptyString (JsObj.get fields k) = true) ∧
    (validateCardData (.obj fields) false).errors =
      (cardFieldNames.filter (fun k => decide (JsObj.get fields k ≠ .undefined) &&
          !isNonEmptyString (JsObj.get fields k))).map
        (fun k => k ++ " must be a non-empty string") ∧
    ((∀ k ∈ cardFieldNames, JsObj.get fields k = .undefined) →
      validateCardData (.obj fields) false = { valid := true, errors := [] }) := by
  rw [validateCardData_update_obj]
  have h1 := offendsOnUpdate_eq_false (fields.get "suit")
  have h2 := offendsOnUpdate_eq_false (fields.get "value")
  have h3 := offendsOnUpdate_eq_false (fields.get "collection")
  have e1 : (decide (fields.get "suit" ≠ .undefined) && !isNonEmptyString (fields.get "suit")) =
      offendsOnUpdate (fields.get "suit") := rfl
  have e2 : (decide (fields.get "value" ≠ .undefined) &&
      !isNonEmptyString (fields.get "value")) = offendsOnUpdate (fields.get "value") := rfl
  have e3 : (decide (fields.get "collection" ≠ .undefined) &&
      !isNonEmptyString (fields.get "collection")) =
      offendsOnUpdate (fields.get "collection") := rfl
  simp only [cardFieldNames, List.mem_cons, List.mem_singleton, List.not_mem_nil, or_false,
    forall_eq_or_imp, forall_eq, List.filter, e1, e2, e3, ← h1, ← h2, ← h3]
  refine ⟨?_, ?_, ?_⟩
  · cases offendsOnUpdate (fields.get "suit") <;>
      cases offendsOnUpdate (fields.get "value") <;>
      cases offendsOnUpdate (fields.get "collection") <;> decide
  · cases offendsOnUpdate (fields.get "suit") <;>
      cases offendsOnUpdate (fields.get "value") <;>
      cases offendsOnUpdate (fields.get "collection") <;> decide
  · rintro ⟨a1, a2, a3⟩
    have b1 : offendsOnUpdate (fields.get "suit") = false := h1.mpr (Or.inl a1)
    have b2 : offendsOnUpdate (fields.get "value") = false := h2.mpr (Or.inl a2)
    have b3 : offendsOnUpdate (fields.get "collection") = false := h3.mpr (Or.inl a3)
    rw [b1, b2, b3]
    rfl

/-! ## Reading one card -/

/-- An id that does not parse to a positive number fails `validateCardId`. -/
theorem validateCardId_of_not_pos (v : JsVal)
    (hbad : ∀ id, jsParseInt v = some id → id ≤ 0) :
    validateCardId v = { valid := false, error := some "Card ID must be a positive number" } := by
  unfold validateCardId
  cases hparse : jsParseInt v with
  | none => rfl
  | some id =>
    simp only []
    rw [if_pos (hbad id hparse)]

/-- C16: for every path parameter and store content, `GET /cards/:id` answers
400 with message "Card ID must be a positive number" when the parameter does
not parse to a positive integer, 404 when it parses to a positive integer that
matches no card, and 200 with the matching card otherwise; `validateCardId`
returns `valid = true` exactly when the parameter parses to a positive
integer, that is in the last two cases.  On the seed store `GET /cards/abc`
answers 400 with that message and `GET /cards/999999` answers 404. -/
theorem getCardById_outcomes (s : Store) (idParam : String) (now : Timestamp) :
    ((∀ id, jsParseInt (.str idParam) = some id → id ≤ 0) →
      CardController.getCardById s idParam now =
        ⟨400, errorBody "Bad Request" "Card ID must be a positive number" now⟩) ∧
    (∀ id, jsParseInt (.str idParam) = some id → 0 < id → CardModel.getById s id = none →
      (CardController.getCardById s idParam now).status = 404) ∧
    (∀ id card, jsParseInt (.str idParam) = some id → 0 < id →
      CardModel.getById s id = some card →
      CardController.getCardById s idParam now = ⟨200, .obj card⟩) ∧
    ((validateCardId (.str idParam)).valid = true ↔
      ∃ id, jsParseInt (.str idParam) = some id ∧ 0 < id) ∧
    CardController.getCardById seed "abc" "2024-01-01T00:00:00.000Z" =
      ⟨400, errorBody "Bad Request" "Card ID must be a positive number"
        "2024-01-01T00:00:00.000Z"⟩ ∧
    (CardController.getCardById seed "999999" "2024-01-01T00:00:00.000Z").status = 404 := by
  refine ⟨?_, ?_, ?_, ?_, by decide, by decide⟩
  · intro hbad
    unfold CardController.getCardById
    simp only [validateCardId_of_not_pos _ hbad]
    rfl
  · intro id hparse hpos hnone
    unfold CardController.getCardById
    simp only [validateCardId_of_pos _ id hparse hpos, hparse, CardService.getCardById, hnone]
    rfl
  · intro id card hparse hpos hcard
    unfold CardController.getCardById
    simp only [validateCardId_of_pos _ id hparse hpos, hparse, CardService.getCardById, hcard]
    rfl
  · constructor
    · intro hvalid
      cases hparse : jsParseInt (.str idParam) with
      | none =>
        rw [validateCardId_of_not_pos _ (fun id h => by rw [hparse] at h; cases h)] at hvalid
        cases hvalid
      | some id =>
        by_cases hpos : 0 < id
        · exact ⟨id, rfl, hpos⟩
        · rw [validateCardId_of_not_pos _ (fun k h => by
            rw [hparse] at h
            obtain rfl := Option.some.inj h
            omega)] at hvalid
          cases hvalid
    · rintro ⟨id, hparse, hpos⟩
      rw [validateCardId_of_pos _ id hparse hpos]

/-! ## Timestamps in response bodies -/

theorem errorBody_hasTimestamp (error message : String) (now : Timestamp) :
    (errorBody error message now).hasTimestamp = true := by
  simp [errorBody, JsVal.hasTimestamp, JsObj.keys]

theorem idErrorBody_hasTimestamp (v : IdValidation) (now : Timestamp) :
    (CardController.idErrorBody v now).hasTimestamp = true := by
  simp [CardController.idErrorBody, JsVal.hasTimestamp, JsObj.keys]

theorem getCards_timestamp (s : Store) (queryPage queryLimit : JsVal) (now : Timestamp) :
    (CardController.getCards s queryPage queryLimit now).status = 200 ∨
      (CardController.getCards s queryPage queryLimit now).body.hasTimestamp = true := by
  unfold CardController.getCards
  split
  · dsimp only
    split
    · exact Or.inr (errorBody_hasTimestamp _ _ _)
    · split
      · exact Or.inl rfl
      · exact Or.inr (errorBody_hasTimestamp _ _ _)
  · exact Or.inr (errorBody_hasTimestamp _ _ _)

theorem getCardById_timestamp (s : Store) (idParam : String) (now : Timestamp) :
    (CardController.getCardById s idParam now).status = 200 ∨
      (CardController.getCardById s idParam now).body.hasTimestamp = true := by
  unfold CardController.getCardById
  dsimp only
  split
  · exact Or.inr (idErrorBody_hasTimestamp _ _)
  · split
    · exact Or.inr (errorBody_hasTimestamp _ _ _)
    · split
      · exact Or.inr (errorBody_hasTimestamp _ _ _)
      · exact Or.inl rfl

theorem createCard_timestamp (s : Store) (body : JsVal) (t1 t2 : Timestamp) :
    (CardController.createCard s body t1 t2).1.status = 201 ∨
      (CardController.createCard s body t1 t2).1.body.hasTimestamp = true := by
  unfold CardController.createCard
  dsimp only
  split
  · exact Or.inr (errorBody_hasTimestamp _ _ _)
  · split
    · exact Or.inl rfl
    · exact Or.inr (errorBody_hasTimestamp _ _ _)

theorem updateCard_timestamp (s : Store) (idParam : String) (body : JsVal) (now : Timestamp) :
    (CardController.updateCard s idParam body now).1.status = 200 ∨
      (CardController.updateCard s idParam body now).1.body.hasTimestamp = true := by
  unfold CardController.updateCard
  dsimp only
  split
  · exact Or.inr (idErrorBody_hasTimestamp _ _)
  · split
    · exact Or.inr (errorBody_hasTimestamp _ _ _)
    · split
      · exact Or.inr (errorBody_hasTimestamp _ _ _)
      · split
        · exact Or.inr (errorBody_hasTimestamp _ _ _)
        · split
          · exact Or.inr (errorBody_hasTimestamp _ _ _)
          · exact Or.inl rfl

theorem deleteCard_timestamp (s : Store) (idParam : String) (now : Timestamp) :
    (CardController.deleteCard s idParam now).1.body.hasTimestamp = true := by
  unfold CardController.deleteCard
  dsimp only
  split
  · exact idErrorBody_hasTimestamp _ _
  · split
    · exact errorBody_hasTimestamp _ _ _
    · split
      · exact errorBody_hasTimestamp _ _ _
      · simp [JsVal.hasTimestamp, JsObj.keys]

/-- C17, as stated, fails on every successful answer but the one of delete:
on the seed store the 200 body of `GET /cards?page=1&limit=2` (the envelope),
the 200 body of `GET /cards/171836785992` (the card), the 201 body of a
`POST /cards` (the new card) and the 200 body of a `PUT /cards/171836785992`
(the updated card) have no `timestamp` property. -/
theorem success_bodies_without_timestamp :
    ((answer seed (.list (.str "1") (.str "2") "2024-01-01T00:00:00.000Z")).status = 200 ∧
      (answer seed (.list (.str "1") (.str "2") "2024-01-01T00:00:00.000Z")).body.hasTimestamp =
        false) ∧
    ((answer seed (.byId "171836785992" "2024-01-01T00:00:00.000Z")).status = 200 ∧
      (answer seed (.byId "171836785992" "2024-01-01T00:00:00.000Z")).body.hasTimestamp =
        false) ∧
    ((answer seed (.change (.post (.obj [("suit", .str "hearts"), ("value", .str "10"),
        ("collection", .str "classic")]) "2024-01-01T00:00:00.000Z"
        "2024-01-01T00:00:00.000Z"))).status = 201 ∧
      (answer seed (.change (.post (.obj [("suit", .str "hearts"), ("value", .str "10"),
        ("collection", .str "classic")]) "2024-01-01T00:00:00.000Z"
        "2024-01-01T00:00:00.000Z"))).body.hasTimestamp = false) ∧
    ((answer seed (.change (.put "171836785992" (.obj [("suit", .str "hearts")])
        "2024-01-01T00:00:00.000Z"))).status = 200 ∧
      (answer seed (.change (.put "171836785992" (.obj [("suit", .str "hearts")])
        "2024-01-01T00:00:00.000Z"))).body.hasTimestamp = false) := by
  refine ⟨⟨by decide, by decide⟩, ⟨by decide, by decide⟩, ⟨by decide, by decide⟩,
    ⟨by decide, by decide⟩⟩

/-- C17, amended: for every request handled by the controller (list,
get-by-id, create, update, delete), every 400, 404 and 500 answer has a JSON
body with a `timestamp` property, and so has every answer to a delete request
(its 200 answer included). -/
theorem error_and_delete_bodies_have_timestamp (s : Store) (req : ApiRequest)
    (h : (answer s req).status = 400 ∨ (answer s req).status = 404 ∨
      (answer s req).status = 500 ∨ req.isDelete = true) :
    (answer s req).body.hasTimestamp = true := by
  cases req with
  | list queryPage queryLimit now =>
    rcases getCards_timestamp s queryPage queryLimit now with h200 | hts
    · simp only [answer, h200, ApiRequest.isDelete] at h
      simp at h
    · exact hts
  | byId idParam now =>
    rcases getCardById_timestamp s idParam now with h200 | hts
    · simp only [answer, h200, ApiRequest.isDelete] at h
      simp at h
    · exact hts
  | change r =>
    cases r with
    | post body t1 t2 =>
      rcases createCard_timestamp s body t1 t2 with h201 | hts
      · simp only [answer, handle, h201, ApiRequest.isDelete] at h
        simp at h
      · exact hts
    | put idParam body now =>
      rcases updateCard_timestamp s idParam body now with h200 | hts
      · simp only [answer, handle, h200, ApiRequest.isDelete] at h
        simp at h
      · exact hts
    | del idParam now => exact deleteCard_timestamp s idParam now

theorem error_and_delete_bodies_have_timestamp_witness :
    ((answer seed (.byId "abc" "2024-01-01T00:00:00.000Z")).status = 400 ∨
      (answer seed (.byId "abc" "2024-01-01T00:00:00.000Z")).status = 404 ∨
      (answer seed (.byId "abc" "2024-01-01T00:00:00.000Z")).status = 500 ∨
      (ApiRequest.byId "abc" "2024-01-01T00:00:00.000Z").isDelete = true) ∧
    (answer seed (.byId "abc" "2024-01-01T00:00:00.000Z")).body.hasTimestamp = true :=
  ⟨by decide, error_and_delete_bodies_have_timestamp seed
    (.byId "abc" "2024-01-01T00:00:00.000Z") (by decide)⟩

/-! ## Updating and creating through the controller -/

/-- C18: for every `PUT /cards/:id` request whose id parses to a positive
integer that matches no card, the controller answers 404 whatever the request
body is, and the store is left unchanged. -/
theorem updateCard_unknown_id (s : Store) (idParam : String) (id : Int) (body : JsVal)
    (now : Timestamp) (hparse : jsParseInt (.str idParam) = some id) (hpos : 0 < id)
    (hnone : CardModel.getById s id = none) :
    (CardController.updateCard s idParam body now).1.status = 404 ∧
      (CardController.updateCard s idParam body now).1.body =
        errorBody "Not Found" ("Card with ID " ++ toString id ++ " does not exist") now ∧
      (CardController.updateCard s idParam body now).2 = s := by
  have h : CardController.updateCard s idParam body now =
      (⟨404, CardController.notFoundBody (some id) now⟩, s) := by
    unfold CardController.updateCard
    simp only [validateCardId_of_pos _ id hparse hpos, hparse, CardService.getCardById, hnone]
    rfl
  rw [h]
  exact ⟨rfl, rfl, rfl⟩

theorem updateCard_unknown_id_witness :
    jsParseInt (.str "999999") = some 999999 ∧ (0 : Int) < 999999 ∧
      CardModel.getById seed 999999 = none ∧
      (validateCardData (.obj [("suit", .num 5)]) false).valid = false ∧
      (CardController.updateCard seed "999999" (.obj [("suit", .num 5)])
        "2024-01-01T00:00:00.000Z").1.status = 404 ∧
      (CardController.updateCard seed "999999" (.obj [("suit", .num 5)])
        "2024-01-01T00:00:00.000Z").2 = seed :=
  ⟨by decide, by decide, by decide, by decide,
    (updateCard_unknown_id seed "999999" 999999 (.obj [("suit", .num 5)])
      "2024-01-01T00:00:00.000Z" (by decide) (by decide) (by decide)).1,
    (updateCard_unknown_id seed "999999" 999999 (.obj [("suit", .num 5)])
      "2024-01-01T00:00:00.000Z" (by decide) (by decide) (by decide)).2.2⟩

theorem isNonEmptyString_str {v : JsVal} (h : isNonEmptyString v = true) :
    ∃ s, v = .str s := by
  cases v with
  | str s => exact ⟨s, rfl⟩
  | _ => simp [isNonEmptyString] at h

/-- An object passes creation validation exactly when its three fields are
non-empty strings. -/
theorem creation_valid_iff (fields : JsObj) :
    (validateCardData (.obj fields) true).valid = true ↔
      isNonEmptyString (fields.get "suit") = true ∧
        isNonEmptyString (fields.get "value") = true ∧
        isNonEmptyString (fields.get "collection") = true := by
  rw [validateCardData_creation_obj]
  cases isNonEmptyString (fields.get "suit") <;> cases isNonEmptyString (fields.get "value") <;>
    cases isNonEmptyString (fields.get "collection") <;> decide

/-- A body that passes creation validation is an object whose three fields are
strings. -/
theorem fields_of_valid_creation (body : JsVal) (h : (validateCardData body true).valid = true) :
    ∃ suit value collection : String, body.getProp "suit" = .str suit ∧
      body.getProp "value" = .str value ∧ body.getProp "collection" = .str collection := by
  cases body with
  | obj fields =>
    obtain ⟨h1, h2, h3⟩ := (creation_valid_iff fields).mp h
    obtain ⟨a, ha⟩ := isNonEmptyString_str h1
    obtain ⟨b, hb⟩ := isNonEmptyString_str h2
    obtain ⟨c, hc⟩ := isNonEmptyString_str h3
    exact ⟨a, b, c, ha, hb, hc⟩
  | arr items =>
    simp [validateCardData, JsVal.truthy, JsVal.typeof, JsVal.getProp, requiredFieldBad,
      trimIsEmpty] at h
  | undefined => simp [validateCardData, JsVal.truthy] at h
  | null => simp [validateCardData, JsVal.truthy] at h
  | bool b => cases b <;> simp [validateCardData, JsVal.truthy, JsVal.typeof] at h
  | num n => simp [validateCardData, JsVal.typeof] at h
  | str s => simp [validateCardData, JsVal.typeof] at h

/-- C20: for every `POST /cards` body that passes creation validation, the
controller answers 201 with the new card, and the card appended to the store
has `suit`, `value` and `collection` equal to the white-space-trimmed request
values; for every body that fails validation it answers 400 and the store
(list and id counter) is unchanged. -/
theorem createCard_outcomes (s : Store) (body : JsVal) (t1 t2 : Timestamp) :
    ((validateCardData body true).valid = true →
      ∃ (suit value collection : String) (card : JsObj),
        body.getProp "suit" = .str suit ∧ body.getProp "value" = .str value ∧
        body.getProp "collection" = .str collection ∧
        CardController.createCard s body t1 t2 =
          (⟨201, .obj card⟩, { cards := s.cards ++ [card], nextId := s.nextId + 1 }) ∧
        card.get "suit" = .str (jsTrim suit) ∧ card.get "value" = .str (jsTrim value) ∧
        card.get "collection" = .str (jsTrim collection)) ∧
    ((validateCardData body true).valid = false →
      (CardController.createCard s body t1 t2).1.status = 400 ∧
        (CardController.createCard s body t1 t2).2 = s) := by
  constructor
  · intro hvalid
    obtain ⟨suit, value, collection, h1, h2, h3⟩ := fields_of_valid_creation body hvalid
    refine ⟨suit, value, collection,
      [("id", .num s.nextId), ("suit", .str (jsTrim suit)), ("value", .str (jsTrim value)),
        ("collection", .str (jsTrim collection)), ("createdAt", .str t1),
        ("updatedAt", .str t2)], h1, h2, h3, ?_, ?_, ?_, ?_⟩
    · unfold CardController.createCard
      simp only [hvalid, h1, h2, h3, trimCall, CardService.createCard, CardModel.create]
      rfl
    · simp [JsObj.get]
    · simp [JsObj.get]
    · simp [JsObj.get]
  · intro hinvalid
    unfold CardController.createCard
    simp only [hinvalid]
    exact ⟨rfl, rfl⟩

/-! ## The validators never throw -/

theorem requiredFieldBadE_eq (cardData : JsVal) (k : String) (v : JsVal)
    (h : getPropE cardData k = some v) :
    requiredFieldBadE cardData k = some (requiredFieldBad v) := by
  unfold requiredFieldBadE
  rw [h]
  cases v with
  | str s =>
    by_cases hs : s = ""
    · subst hs
      simp [requiredFieldBad, JsVal.truthy, JsVal.typeof, trimIsEmpty]
    · have hb : (s == "") = false := beq_eq_false_iff_ne.mpr hs
      simp [requiredFieldBad, JsVal.truthy, JsVal.typeof, trimIsEmpty, trimCall, bne, hb]
  | bool b => cases b <;> simp [requiredFieldBad, JsVal.truthy, JsVal.typeof, trimIsEmpty]
  | num n =>
    by_cases hn : n = 0
    · simp [requiredFieldBad, JsVal.truthy, JsVal.typeof, trimIsEmpty, hn]
    · have hb : (n == 0) = false := beq_eq_false_iff_ne.mpr hn
      simp [requiredFieldBad, JsVal.truthy, JsVal.typeof, trimIsEmpty, bne, hb]
  | _ => simp [requiredFieldBad, JsVal.truthy, JsVal.typeof, trimIsEmpty]

theorem optionalFieldBadE_eq (cardData : JsVal) (k : String) (v : JsVal)
    (h : getPropE cardData k = some v) :
    optionalFieldBadE cardData k = some (decide (v ≠ .undefined) && optionalFieldBad v) := by
  unfold optionalFieldBadE
  rw [h]
  cases v <;> simp [optionalFieldBad, JsVal.typeof, trimIsEmpty, trimCall, bne]

/-- Evaluated with explicit exceptions, `validateCardData` always returns, and
returns what the exception-free reading of its body computes. -/
theorem validateCardDataE_eq (cardData : JsVal) (isCreation : Bool) :
    validateCardDataE cardData isCreation = some (validateCardData cardData isCreation) := by
  have hobj : ∀ (c : JsVal), (!c.truthy || c.typeof != "object") = false →
      ∀ k, getPropE c k = some (c.getProp k) := by
    intro c hc k
    cases c <;> simp [JsVal.truthy, JsVal.typeof] at hc <;> rfl
  unfold validateCardDataE validateCardData
  by_cases hguard : (!cardData.truthy || cardData.typeof != "object") = true
  · simp only [hguard, if_true]
  · simp only [Bool.not_eq_true] at hguard
    have hp := hobj cardData hguard
    simp only [hguard, Bool.false_eq_true, if_false]
    cases isCreation with
    | true =>
      simp only [if_true, requiredFieldBadE_eq _ _ _ (hp "suit"),
        requiredFieldBadE_eq _ _ _ (hp "value"), requiredFieldBadE_eq _ _ _ (hp "collection"),
        pushIf]
      cases requiredFieldBad (cardData.getProp "suit") <;>
        cases requiredFieldBad (cardData.getProp "value") <;>
        cases requiredFieldBad (cardData.getProp "collection") <;> rfl
    | false =>
      simp only [Bool.false_eq_true, if_false, optionalFieldBadE_eq _ _ _ (hp "suit"),
        optionalFieldBadE_eq _ _ _ (hp "value"), optionalFieldBadE_eq _ _ _ (hp "collection"),
        pushIf]
      by_cases h1 : cardData.getProp "suit" = .undefined <;>
        by_cases h2 : cardData.getProp "value" = .undefined <;>
        by_cases h3 : cardData.getProp "collection" = .undefined <;>
        cases optionalFieldBad (cardData.getProp "suit") <;>
        cases optionalFieldBad (cardData.getProp "value") <;>
        cases optionalFieldBad (cardData.getProp "collection") <;>
        simp [h1, h2, h3]

theorem validateCardData_valid_iff (cardData : JsVal) (isCreation : Bool) :
    (validateCardData cardData isCreation).valid = true ↔
      (validateCardData cardData isCreation).errors = [] := by
  unfold validateCardData
  split
  · simp
  · simp only [beq_iff_eq, List.length_eq_zero]

theorem validatePaginationParams_valid_iff (page limit : JsNumber) :
    (validatePaginationParams page limit).valid = true ↔
      (validatePaginationParams page limit).errors = [] := by
  simp only [validatePaginationParams, beq_iff_eq, List.length_eq_zero]

theorem validateCardId_valid_iff (id : JsVal) :
    (validateCardId id).valid = true ↔ (validateCardId id).error = none := by
  unfold validateCardId
  split
  · simp
  · split <;> simp

mutual
/-- The conversion to a string returns exactly on the values that have a
conversion to a primitive. -/
theorem toJsString_isSome : ∀ v : JsVal, v.toJsString.isSome = v.convertsToPrimitive
  | .undefined => rfl
  | .null => rfl
  | .bool _ => rfl
  | .num _ => rfl
  | .str _ => rfl
  | .arr items => by
    simp only [JsVal.toJsString, JsVal.convertsToPrimitive, Option.isSome_map']
    exact joinItems_isSome items
  | .obj fields => by
    simp only [JsVal.toJsString, JsVal.convertsToPrimitive]
    by_cases h : "toString" ∈ JsObj.keys fields <;> simp [h]
theorem joinItems_isSome : ∀ items : List JsVal,
    (JsVal.joinItems items).isSome = JsVal.allConvert items
  | [] => rfl
  | .undefined :: rest => by
    simp only [JsVal.joinItems, JsVal.allConvert, JsVal.convertsToPrimitive, Option.isSome_map',
      Bool.true_and]
    exact joinItems_isSome rest
  | .null :: rest => by
    simp only [JsVal.joinItems, JsVal.allConvert, JsVal.convertsToPrimitive, Option.isSome_map',
      Bool.true_and]
    exact joinItems_isSome rest
  | .bool b :: rest => by
    have h := joinItems_isSome rest
    simp only [JsVal.joinItems, JsVal.allConvert, JsVal.convertsToPrimitive, JsVal.toJsString,
      Bool.true_and, ← h]
    cases JsVal.joinItems rest <;> rfl
  | .num n :: rest => by
    have h := joinItems_isSome rest
    simp only [JsVal.joinItems, JsVal.allConvert, JsVal.convertsToPrimitive, JsVal.toJsString,
      Bool.true_and, ← h]
    cases JsVal.joinItems rest <;> rfl
  | .str t :: rest => by
    have h := joinItems_isSome rest
    simp only [JsVal.joinItems, JsVal.allConvert, JsVal.convertsToPrimitive, JsVal.toJsString,
      Bool.true_and, ← h]
    cases JsVal.joinItems rest <;> rfl
  | .arr inner :: rest => by
    have h := joinItems_isSome rest
    have h1 := toJsString_isSome (.arr inner)
    simp only [JsVal.joinItems, JsVal.allConvert, ← h, ← h1]
    cases JsVal.toJsString (.arr inner) <;> cases JsVal.joinItems rest <;> rfl
  | .obj fields :: rest => by
    have h := joinItems_isSome rest
    have h1 := toJsString_isSome (.obj fields)
    simp only [JsVal.joinItems, JsVal.allConvert, ← h, ← h1]
    cases JsVal.toJsString (.obj fields) <;> cases JsVal.joinItems rest <;> rfl
end

/-- The conversion to a number returns exactly on the values that have a
conversion to a primitive. -/
theorem toNumber_isSome (stringToNumber : String → JsNumber) (v : JsVal) :
    (v.toNumber stringToNumber).isSome = v.convertsToPrimitive := by
  cases v with
  | arr items =>
    rw [← toJsString_isSome]
    simp only [JsVal.toNumber, Option.isSome_map']
  | obj fields =>
    simp only [JsVal.toNumber, JsVal.convertsToPrimitive]
    by_cases h : "toString" ∈ JsObj.keys fields <;> simp [h]
  | bool b => cases b <;> rfl
  | _ => rfl

/-- The result of `validateCardIdE`, when there is one, is that of
`validateCardId`. -/
theorem validateCardIdE_eq (id : JsVal) :
    validateCardIdE id = if id.convertsToPrimitive then some (validateCardId id) else none := by
  have h := toJsString_isSome id
  unfold validateCardIdE validateCardId parseIntE jsParseInt
  cases hs : id.toJsString with
  | none =>
    rw [hs] at h
    simp only [Option.isSome_none] at h
    simp [← h]
  | some text =>
    rw [hs] at h
    simp only [Option.isSome_some] at h
    rw [← h]
    simp only [Option.map_some', if_true]
    cases jsParseIntChars text.data with
    | none => rfl
    | some parsedId =>
      simp only []
      split <;> rfl

/-- The result of `validatePaginationParamsOf`, when there is one. -/
theorem validatePaginationParamsOf_eq (stringToNumber : String → JsNumber) (page limit : JsVal) :
    (page.convertsToPrimitive = true → limit.convertsToPrimitive = true →
      ∃ p l, page.toNumber stringToNumber = some p ∧ limit.toNumber stringToNumber = some l ∧
        validatePaginationParamsOf stringToNumber page limit =
          some (validatePaginationParams p l)) ∧
    (page.convertsToPrimitive = false ∨ limit.convertsToPrimitive = false →
      validatePaginationParamsOf stringToNumber page limit = none) := by
  have hp := toNumber_isSome stringToNumber page
  have hl := toNumber_isSome stringToNumber limit
  unfold validatePaginationParamsOf
  constructor
  · intro h1 h2
    rw [h1] at hp
    rw [h2] at hl
    obtain ⟨p, hp1⟩ := Option.isSome_iff_exists.mp hp
    obtain ⟨l, hl1⟩ := Option.isSome_iff_exists.mp hl
    exact ⟨p, l, hp1, hl1, by rw [hp1, hl1]⟩
  · intro h
    rcases h with h | h
    · rw [h] at hp
      have : page.toNumber stringToNumber = none := by
        cases hq : page.toNumber stringToNumber with
        | none => rfl
        | some q => rw [hq] at hp; cases hp
      rw [this]
    · rw [h] at hl
      have : limit.toNumber stringToNumber = none := by
        cases hq : limit.toNumber stringToNumber with
        | none => rfl
        | some q => rw [hq] at hl; cases hl
      rw [this]
      cases page.toNumber stringToNumber <;> rfl

/-- C19, as stated, fails on an object that carries its own `toString`
property (also inside an array): it has no conversion to a primitive, so
`parseInt(id)` in `validateCardId` and `isNaN(page)`, `isNaN(limit)` in
`validatePaginationParams` throw a `TypeError` instead of returning a
result. -/
theorem validators_throw_on_own_toString :
    validateCardIdE (.obj [("toString", .num 1)]) = none ∧
    validateCardIdE (.arr [.num 7, .obj [("toString", .str "x")]]) = none ∧
    (∀ stringToNumber : String → JsNumber,
      validatePaginationParamsOf stringToNumber (.obj [("toString", .num 1)]) (.num 10) =
        none) ∧
    (∀ stringToNumber : String → JsNumber,
      validatePaginationParamsOf stringToNumber (.num 1)
        (.obj [("valueOf", .num 1), ("toString", .num 1)]) = none) := by
  refine ⟨by decide, by decide, fun _ => rfl, fun _ => rfl⟩

/-- C19, amended: `validateCardData` (in creation and in update mode),
evaluated with every throwing operation made explicit, returns its
`{ valid, errors }` result for every input value and never throws.
`validatePaginationParams` and `validateCardId` return their structured result
for every input that has a conversion to a primitive: `null`, `undefined`,
booleans, numbers, strings, objects without an own `toString` property and
arrays of such values; on any other input they throw.  In every result `valid`
is true exactly when the error list is empty (or the single error is null). -/
theorem validators_return_structured_results (cardData : JsVal) (isCreation : Bool)
    (stringToNumber : String → JsNumber) (page limit id : JsVal) :
    validateCardDataE cardData isCreation = some (validateCardData cardData isCreation) ∧
    ((validateCardData cardData isCreation).valid = true ↔
      (validateCardData cardData isCreation).errors = []) ∧
    (page.convertsToPrimitive = true → limit.convertsToPrimitive = true →
      ∃ r, validatePaginationParamsOf stringToNumber page limit = some r ∧
        (r.valid = true ↔ r.errors = [])) ∧
    (page.convertsToPrimitive = false ∨ limit.convertsToPrimitive = false →
      validatePaginationParamsOf stringToNumber page limit = none) ∧
    (id.convertsToPrimitive = true →
      ∃ r, validateCardIdE id = some r ∧ (r.valid = true ↔ r.error = none)) ∧
    (id.convertsToPrimitive = false → validateCardIdE id = none) := by
  refine ⟨validateCardDataE_eq cardData isCreation,
    validateCardData_valid_iff cardData isCreation, ?_,
    (validatePaginationParamsOf_eq stringToNumber page limit).2, ?_, ?_⟩
  · intro h1 h2
    obtain ⟨p, l, _, _, hr⟩ := (validatePaginationParamsOf_eq stringToNumber page limit).1 h1 h2
    exact ⟨_, hr, validatePaginationParams_valid_iff p l⟩
  · intro h
    refine ⟨validateCardId id, ?_, validateCardId_valid_iff id⟩
    rw [validateCardIdE_eq, h]
    rfl
  · intro h
    rw [validateCardIdE_eq, h]
    rfl

theorem validators_return_structured_results_witness :
    (JsVal.arr [.str "12", .obj [("valueOf", .num 1)]]).convertsToPrimitive = true ∧
      (∃ r, validateCardIdE (.arr [.str "12", .obj [("valueOf", .num 1)]]) = some r ∧
        (r.valid = true ↔ r.error = none)) ∧
      validateCardIdE (.arr [.str "12", .obj [("valueOf", .num 1)]]) =
        some { valid := true, error := none } :=
  ⟨by decide,
    (validators_return_structured_results (.obj [("suit", .num 1)]) true (fun _ => .nan)
      (.num 1) (.num 10) (.arr [.str "12", .obj [("valueOf", .num 1)]])).2.2.2.2.1 (by decide),
    by decide⟩

/-! ## The pages partition the store -/

/-- Consecutive chunks of length `L` make up a leading part of the list. -/
theorem chunks_flatMap_eq_take (xs : List JsObj) (L k : Nat) :
    (List.range k).flatMap (fun i => (xs.drop (i * L)).take L) = xs.take (k * L) := by
  induction k with
  | zero => simp
  | succ k ih =>
    rw [List.range_succ, List.flatMap_append, ih, List.flatMap_singleton, Nat.succ_mul,
      List.take_add]

/-- Taking up to the end of the list or `L` elements, whichever comes first,
is taking `L` elements. -/
theorem take_min_length (xs : List JsObj) (L : Nat) : xs.take (min L xs.length) = xs.take L := by
  rw [← List.take_take, List.take_length]

/-- The cards of page `i + 1`, for a page within `totalPages`: the chunk of
`limit` cards that starts at index `i * limit`. -/
theorem pageCards_eq_chunk (s : Store) (L i : Nat) (hL : 1 ≤ L)
    (hi : (i : Int) + 1 ≤ totalPagesOf s.cards.length (L : Int)) :
    pageCards s (L : Int) ((i : Int) + 1) = (s.cards.drop (i * L)).take L := by
  have hlimit : (1 : Int) ≤ (L : Int) := by exact_mod_cast hL
  obtain ⟨hb1, _, _⟩ := totalPagesOf_bounds s.cards.length (L : Int) hlimit
  unfold pageCards
  rw [getPaginatedCards_eq s _ _ hlimit]
  dsimp only
  generalize totalPagesOf s.cards.length (L : Int) = T at hi hb1
  have hcp : max 1 (min ((i : Int) + 1) T) = (i : Int) + 1 := by omega
  rw [hcp]
  have hstart : ((i : Int) + 1 - 1) * (L : Int) = ((i * L : Nat) : Int) := by
    push_cast
    ring
  rw [hstart]
  have hle : ((i * L : Nat) : Int) ≤ (s.cards.length : Int) := by
    have h1 : (i : Int) * (L : Int) ≤ (T - 1) * (L : Int) := by nlinarith
    rw [← hstart]
    have h2 : ((i : Int) + 1 - 1) * (L : Int) = (i : Int) * (L : Int) := by ring
    rw [h2]
    exact le_trans h1 hb1
  rw [jsSlice_eq s.cards _ _ (by omega) (by omega) hle]
  have hend : (((i * L : Nat) : Int) + (L : Int)).toNat = i * L + L := by omega
  have hst : ((i * L : Nat) : Int).toNat = i * L := by omega
  rw [hend, hst]
  have hlen : min (i * L + L) s.cards.length - i * L = min L (s.cards.drop (i * L)).length := by
    rw [List.length_drop]
    have : i * L ≤ s.cards.length := by exact_mod_cast hle
    omega
  rw [hlen, take_min_length]

/-- The first `k` pages, for `k` within `totalPages`, make up the first
`k * limit` cards. -/
theorem allPagesCards_eq_take (s : Store) (L k : Nat) (hL : 1 ≤ L)
    (hk : (k : Int) ≤ totalPagesOf s.cards.length (L : Int)) :
    allPagesCards s (L : Int) k = s.cards.take (k * L) := by
  rw [← chunks_flatMap_eq_take]
  unfold allPagesCards
  induction k with
  | zero => simp
  | succ k ih =>
    have hk1 : (k : Int) + 1 ≤ totalPagesOf s.cards.length (L : Int) := by exact_mod_cast hk
    rw [List.range_succ, List.flatMap_append, List.flatMap_append, ih (by omega),
      List.flatMap_singleton, List.flatMap_singleton, pageCards_eq_chunk s L k hL hk1]

/-- C21: for every store content and every integer limit of at least 1, the
`cards` fields of `getPaginatedCards(p, limit)` for `p = 1, 2, ..., totalPages`,
concatenated in that order, are exactly `getAll()`: the card at index `j` of
`getAll()` sits on page `j / limit + 1` at offset `j % limit`, so every card
appears on exactly one page and in insertion order; and a page in that range
is empty only when it is page 1 of an empty store. -/
theorem pages_concatenate_to_getAll (s : Store) (limit : Int) (hlimit : 1 ≤ limit) :
    ∃ r, CardService.getPaginatedCards s 1 limit = some r ∧
      allPagesCards s limit r.totalPages.toNat = CardModel.getAll s ∧
      (∀ j : Nat, j < (CardModel.getAll s).length →
        ((j / limit.toNat : Nat) : Int) + 1 ≤ r.totalPages ∧
        (pageCards s limit (((j / limit.toNat : Nat) : Int) + 1))[j % limit.toNat]? =
          (CardModel.getAll s)[j]?) ∧
      (∀ i : Nat, (i : Int) + 1 ≤ r.totalPages → pageCards s limit ((i : Int) + 1) = [] →
        CardModel.getAll s = [] ∧ i = 0) := by
  obtain ⟨L, rfl⟩ : ∃ L : Nat, limit = (L : Int) := ⟨limit.toNat, by omega⟩
  have hL : 1 ≤ L := by exact_mod_cast hlimit
  refine ⟨_, getPaginatedCards_eq s 1 _ hlimit, ?_, ?_, ?_⟩
  all_goals dsimp only [CardModel.getAll]
  all_goals have hT := totalPagesOf_pos s.cards.length (L : Int) hlimit
  all_goals obtain ⟨hb1, hb2, hb3⟩ := totalPagesOf_bounds s.cards.length (L : Int) hlimit
  · rw [allPagesCards_eq_take s L _ hL (by omega)]
    apply List.take_of_length_le
    have h1 : (s.cards.length : Int) ≤
        (((totalPagesOf s.cards.length (L : Int)).toNat * L : Nat) : Int) := by
      push_cast
      rw [Int.toNat_of_nonneg (by omega)]
      exact hb2
    exact_mod_cast h1
  · intro j hj
    simp only [Int.toNat_ofNat]
    have hdm := Nat.div_add_mod j L
    have hmod : j % L < L := Nat.mod_lt _ (by omega)
    have hpage : ((j / L : Nat) : Int) + 1 ≤ totalPagesOf s.cards.length (L : Int) := by
      by_contra hcon
      have h1 : totalPagesOf s.cards.length (L : Int) ≤ ((j / L : Nat) : Int) := by omega
      have h2 : totalPagesOf s.cards.length (L : Int) * (L : Int) ≤
          ((j / L : Nat) : Int) * (L : Int) := by nlinarith
      have h3 : ((j / L : Nat) : Int) * (L : Int) ≤ (j : Int) := by
        have : (j / L) * L ≤ j := Nat.div_mul_le_self j L
        exact_mod_cast this
      omega
    refine ⟨hpage, ?_⟩
    rw [pageCards_eq_chunk s L (j / L) hL hpage, List.getElem?_take, if_pos hmod,
      List.getElem?_drop]
    congr 1
    rw [Nat.mul_comm]
    exact hdm
  · intro i hi hempty
    rw [pageCards_eq_chunk s L i hL hi] at hempty
    have hlen : ((s.cards.drop (i * L)).take L).length = 0 := by rw [hempty]; rfl
    rw [List.length_take, List.length_drop] at hlen
    have hn : s.cards.length ≤ i * L := by omega
    have hi1 : (i : Int) * (L : Int) ≤ (totalPagesOf s.cards.length (L : Int) - 1) * (L : Int) := by
      nlinarith
    have hzero : s.cards.length = 0 := by
      by_contra hne
      have hpos : 0 < s.cards.length := Nat.pos_of_ne_zero hne
      have h3 := hb3 hpos
      have h4 : (s.cards.length : Int) ≤ (i : Int) * (L : Int) := by exact_mod_cast hn
      omega
    refine ⟨List.length_eq_zero.mp hzero, ?_⟩
    have hT1 : totalPagesOf s.cards.length (L : Int) = 1 := by
      rw [hzero]
      unfold totalPagesOf
      rw [if_pos ((mathCeilDiv_eq_zero_iff 0 (L : Int) hlimit).mpr rfl)]
    omega

theorem pages_concatenate_to_getAll_witness :
    (1 : Int) ≤ 3 ∧ ∃ r, CardService.getPaginatedCards seed 1 3 = some r ∧
      r.totalPages = 2 ∧
      allPagesCards seed 3 r.totalPages.toNat = CardModel.getAll seed := by
  refine ⟨by decide, ?_⟩
  obtain ⟨r, hr, hall, _, _⟩ := pages_concatenate_to_getAll seed 3 (by decide)
  refine ⟨r, hr, ?_, hall⟩
  have hq : (CardService.getPaginatedCards seed 1 3).map (fun q => q.totalPages) = some 2 := by
    decide
  rw [hr] at hq
  exact Option.some.inj hq

